import Mathlib
/-!
# Verification development for `aws/internal/keyvaluetags/generators/listtags/main.go`

A shallow embedding of the list-tags generator: the compiled-in roster
`serviceNames`, the four lookup functions behind the template function map,
the execution of `templateBody`, and `main` as a run over an explicit state
(the package-level variable, the output file and the trace of file operations).

Go strings are modelled by Lean strings; the rendered text is the text that
`tmpl.Execute` writes to the buffer, before `format.Source`.
-/

namespace ListTags

/-! ## Constants of the source file -/

/-- The constant `filename` (line 17). -/
def filename : String := "list_tags_gen.go"

/-- The initial value of the package-level variable `serviceNames` (lines 19-85). -/
def serviceNames : List String := [
  "acmpca",
  "amplify",
  "appmesh",
  "appstream",
  "appsync",
  "athena",
  "backup",
  "cloudhsmv2",
  "cloudwatch",
  "cloudwatchevents",
  "codecommit",
  "codedeploy",
  "codepipeline",
  "cognitoidentity",
  "cognitoidentityprovider",
  "configservice",
  "databasemigrationservice",
  "datasync",
  "dax",
  "devicefarm",
  "directoryservice",
  "docdb",
  "dynamodb",
  "ecr",
  "ecs",
  "efs",
  "eks",
  "elasticache",
  "elasticbeanstalk",
  "elasticsearchservice",
  "firehose",
  "fsx",
  "glue",
  "guardduty",
  "inspector",
  "iot",
  "iotanalytics",
  "iotevents",
  "kafka",
  "kinesisanalytics",
  "kinesisanalyticsv2",
  "kms",
  "lambda",
  "licensemanager",
  "mediaconnect",
  "medialive",
  "mediapackage",
  "mediastore",
  "mq",
  "neptune",
  "opsworks",
  "organizations",
  "qldb",
  "rds",
  "route53resolver",
  "sagemaker",
  "securityhub",
  "sfn",
  "sns",
  "ssm",
  "storagegateway",
  "swf",
  "transfer",
  "waf",
  "workspaces"]

/-! ## The four lookup functions (lines 176-318) -/

/-- The function `ServiceListTagsFunction` determines the service tagging function: the Go `switch` on
`serviceName`, one alternative per `case` clause in source order, the last one its
`default` clause. -/
def ServiceListTagsFunction (serviceName : String) : String :=
  match serviceName with
  | "acmpca" => "ListTags"
  | "backup" => "ListTags"
  | "cloudhsmv2" => "ListTags"
  | "dax" => "ListTags"
  | "dynamodb" => "ListTagsOfResource"
  | "efs" => "DescribeTags"
  | "elasticsearchservice" => "ListTags"
  | "firehose" => "ListTagsForDeliveryStream"
  | "glue" => "GetTags"
  | "kms" => "ListResourceTags"
  | "lambda" => "ListTags"
  | "mq" => "ListTags"
  | "opsworks" => "ListTags"
  | "redshift" => "DescribeTags"
  | "sagemaker" => "ListTags"
  | "workspaces" => "DescribeTags"
  | _ => "ListTagsForResource"

/-- The `case` clauses of `ServiceListTagsFunction` as written in the source: each label with the
value its clause returns, in source order. -/
def ServiceListTagsFunctionCases : List (String × String) := [
  ("acmpca", "ListTags"),
  ("backup", "ListTags"),
  ("cloudhsmv2", "ListTags"),
  ("dax", "ListTags"),
  ("dynamodb", "ListTagsOfResource"),
  ("efs", "DescribeTags"),
  ("elasticsearchservice", "ListTags"),
  ("firehose", "ListTagsForDeliveryStream"),
  ("glue", "GetTags"),
  ("kms", "ListResourceTags"),
  ("lambda", "ListTags"),
  ("mq", "ListTags"),
  ("opsworks", "ListTags"),
  ("redshift", "DescribeTags"),
  ("sagemaker", "ListTags"),
  ("workspaces", "DescribeTags")]

/-- The value returned by the `default` clause of `ServiceListTagsFunction`. -/
def ServiceListTagsFunctionDefault : String := "ListTagsForResource"

/-- The function `ServiceListTagsInputIdentifierField` determines the service tag identifier field: the Go `switch` on
`serviceName`, one alternative per `case` clause in source order, the last one its
`default` clause. -/
def ServiceListTagsInputIdentifierField (serviceName : String) : String :=
  match serviceName with
  | "acmpca" => "CertificateAuthorityArn"
  | "athena" => "ResourceARN"
  | "cloudhsmv2" => "ResourceId"
  | "cloudwatch" => "ResourceARN"
  | "cloudwatchevents" => "ResourceARN"
  | "dax" => "ResourceName"
  | "devicefarm" => "ResourceARN"
  | "directoryservice" => "ResourceId"
  | "docdb" => "ResourceName"
  | "efs" => "FileSystemId"
  | "elasticache" => "ResourceName"
  | "elasticsearchservice" => "ARN"
  | "firehose" => "DeliveryStreamName"
  | "fsx" => "ResourceARN"
  | "kinesisanalytics" => "ResourceARN"
  | "kinesisanalyticsv2" => "ResourceARN"
  | "kms" => "KeyId"
  | "lambda" => "Resource"
  | "mediastore" => "Resource"
  | "neptune" => "ResourceName"
  | "organizations" => "ResourceId"
  | "rds" => "ResourceName"
  | "redshift" => "ResourceName"
  | "ssm" => "ResourceId"
  | "storagegateway" => "ResourceARN"
  | "transfer" => "Arn"
  | "workspaces" => "ResourceId"
  | "waf" => "ResourceARN"
  | _ => "ResourceArn"

/-- The `case` clauses of `ServiceListTagsInputIdentifierField` as written in the source: each label with the
value its clause returns, in source order. -/
def ServiceListTagsInputIdentifierFieldCases : List (String × String) := [
  ("acmpca", "CertificateAuthorityArn"),
  ("athena", "ResourceARN"),
  ("cloudhsmv2", "ResourceId"),
  ("cloudwatch", "ResourceARN"),
  ("cloudwatchevents", "ResourceARN"),
  ("dax", "ResourceName"),
  ("devicefarm", "ResourceARN"),
  ("directoryservice", "ResourceId"),
  ("docdb", "ResourceName"),
  ("efs", "FileSystemId"),
  ("elasticache", "ResourceName"),
  ("elasticsearchservice", "ARN"),
  ("firehose", "DeliveryStreamName"),
  ("fsx", "ResourceARN"),
  ("kinesisanalytics", "ResourceARN"),
  ("kinesisanalyticsv2", "ResourceARN"),
  ("kms", "KeyId"),
  ("lambda", "Resource"),
  ("mediastore", "Resource"),
  ("neptune", "ResourceName"),
  ("organizations", "ResourceId"),
  ("rds", "ResourceName"),
  ("redshift", "ResourceName"),
  ("ssm", "ResourceId"),
  ("storagegateway", "ResourceARN"),
  ("transfer", "Arn"),
  ("workspaces", "ResourceId"),
  ("waf", "ResourceARN")]

/-- The value returned by the `default` clause of `ServiceListTagsInputIdentifierField`. -/
def ServiceListTagsInputIdentifierFieldDefault : String := "ResourceArn"

/-- The function `ServiceListTagsInputResourceTypeField` determines the service tagging resource type field: the Go `switch` on
`serviceName`, one alternative per `case` clause in source order, the last one its
`default` clause. -/
def ServiceListTagsInputResourceTypeField (serviceName : String) : String :=
  match serviceName with
  | "ssm" => "ResourceType"
  | _ => ""

/-- The `case` clauses of `ServiceListTagsInputResourceTypeField` as written in the source: each label with the
value its clause returns, in source order. -/
def ServiceListTagsInputResourceTypeFieldCases : List (String × String) := [
  ("ssm", "ResourceType")]

/-- The value returned by the `default` clause of `ServiceListTagsInputResourceTypeField`. -/
def ServiceListTagsInputResourceTypeFieldDefault : String := ""

/-- The function `ServiceListTagsOutputTagsField` determines the service tag field: the Go `switch` on
`serviceName`, one alternative per `case` clause in source order, the last one its
`default` clause. -/
def ServiceListTagsOutputTagsField (serviceName : String) : String :=
  match serviceName with
  | "waf" => "TagInfoForResource.TagList"
  | "cloudhsmv2" => "TagList"
  | "databasemigrationservice" => "TagList"
  | "docdb" => "TagList"
  | "elasticache" => "TagList"
  | "elasticbeanstalk" => "ResourceTags"
  | "elasticsearchservice" => "TagList"
  | "neptune" => "TagList"
  | "rds" => "TagList"
  | "ssm" => "TagList"
  | "workspaces" => "TagList"
  | _ => "Tags"

/-- The `case` clauses of `ServiceListTagsOutputTagsField` as written in the source: each label with the
value its clause returns, in source order. -/
def ServiceListTagsOutputTagsFieldCases : List (String × String) := [
  ("waf", "TagInfoForResource.TagList"),
  ("cloudhsmv2", "TagList"),
  ("databasemigrationservice", "TagList"),
  ("docdb", "TagList"),
  ("elasticache", "TagList"),
  ("elasticbeanstalk", "ResourceTags"),
  ("elasticsearchservice", "TagList"),
  ("neptune", "TagList"),
  ("rds", "TagList"),
  ("ssm", "TagList"),
  ("workspaces", "TagList")]

/-- The value returned by the `default` clause of `ServiceListTagsOutputTagsField`. -/
def ServiceListTagsOutputTagsFieldDefault : String := "Tags"

/-! ## `sort.Strings`: byte-wise order of Go strings

Go compares strings byte by byte. A Lean string is a sequence of Unicode scalar values, so
its bytes are those of its UTF-8 encoding, spelled out here. -/

/-- The UTF-8 encoding of one rune, as Go stores it in a string. -/
def utf8Bytes (c : Char) : List Nat :=
  if c.toNat < 0x80 then [c.toNat]
  else if c.toNat < 0x800 then [0xC0 + c.toNat / 64, 0x80 + c.toNat % 64]
  else if c.toNat < 0x10000 then
    [0xE0 + c.toNat / 4096, 0x80 + c.toNat / 64 % 64, 0x80 + c.toNat % 64]
  else
    [0xF0 + c.toNat / 262144, 0x80 + c.toNat / 4096 % 64, 0x80 + c.toNat / 64 % 64,
      0x80 + c.toNat % 64]

/-- The bytes of a Go string. -/
def stringBytes (s : String) : List Nat := s.toList.flatMap utf8Bytes

/-- Lexicographic `<` on byte sequences: the first differing byte decides, and a proper
prefix is smaller. -/
def lessBytes : List Nat → List Nat → Bool
  | _, [] => false
  | [], _ :: _ => true
  | a :: as, b :: bs => if a < b then true else if b < a then false else lessBytes as bs

/-- Go's `a < b` on strings, the `Less` of `sort.StringSlice`. -/
def stringLess (a b : String) : Bool := lessBytes (stringBytes a) (stringBytes b)

/-- Go's `a <= b` on strings: `!(b < a)`. -/
def stringLE (a b : String) : Prop := stringLess b a = false

instance : DecidableRel stringLE :=
  fun a b => inferInstanceAs (Decidable (stringLess b a = false))

/-- The call `sort.Strings(x)`: `x` rearranged into increasing order. The library's
algorithm is not part of this repository; it is modelled by insertion sort, which returns
the same list as any sorting algorithm does, since two strings that compare equal are the
same string (`stringBytes_inj`). -/
def sortStrings (x : List String) : List String := List.insertionSort stringLE x

/-! ## `strings.Title` -/

/-- The helper `isSeparator` of Go's `strings` package: ASCII alphanumerics and underscore
are not separators, every other ASCII rune is; above ASCII a rune is a separator exactly
when `unicode.IsSpace` holds of it (letters and digits are not spaces). -/
def isSeparator (r : Char) : Bool :=
  if r.toNat ≤ 0x7F then
    !((0x30 ≤ r.toNat && r.toNat ≤ 0x39) || (0x61 ≤ r.toNat && r.toNat ≤ 0x7A)
      || (0x41 ≤ r.toNat && r.toNat ≤ 0x5A) || r.toNat == 0x5F)
  else
    r.toNat == 0x85 || r.toNat == 0xA0 || r.toNat == 0x1680
      || (0x2000 ≤ r.toNat && r.toNat ≤ 0x200A) || r.toNat == 0x2028 || r.toNat == 0x2029
      || r.toNat == 0x202F || r.toNat == 0x205F || r.toNat == 0x3000

/-- The map `unicode.ToTitle` on ASCII runes: a lower-case letter becomes its upper-case
letter, any other ASCII rune is kept. The case tables for runes above ASCII are not part of
this development; such a rune is kept. -/
def toTitle (r : Char) : Char :=
  if 0x61 ≤ r.toNat ∧ r.toNat ≤ 0x7A then Char.ofNat (r.toNat - 32) else r

/-- The loop of `strings.Title`: `prev` is the previous rune, and a rune that follows a
separator is mapped through `toTitle`. -/
def titleLoop (prev : Char) : List Char → List Char
  | [] => []
  | r :: rs => (if isSeparator prev then toTitle r else r) :: titleLoop r rs

/-- The function `strings.Title`, started with `prev = ' '`. It is exact on ASCII text,
which is all that the roster holds. -/
def Title (s : String) : String := String.mk (titleLoop ' ' s.toList)

/-! ## The template (lines 87-105 and 141-174) -/

/-- The type `TemplateData` (lines 87-89). -/
structure TemplateData where
  ServiceNames : List String

/-- The functions a template can call, keyed as in `templateFuncMap` (lines 98-105).
`ClientType` comes from another package and may fail (`text/template` turns a panic of a
called function into an execution error); the others return a string. -/
structure FuncMap where
  ClientType : String → Except String String
  ListTagsFunction : String → String
  ListTagsInputIdentifierField : String → String
  ListTagsInputResourceTypeField : String → String
  ListTagsOutputTagsField : String → String
  Title : String → String

/-- The value `templateFuncMap` built in `main`: the four lookup functions of this file,
with `keyvaluetags.ServiceClientType` and `strings.Title` supplied from outside. -/
def templateFuncMap (ServiceClientType : String → Except String String)
    (title : String → String) : FuncMap where
  ClientType := ServiceClientType
  ListTagsFunction := ServiceListTagsFunction
  ListTagsInputIdentifierField := ServiceListTagsInputIdentifierField
  ListTagsInputResourceTypeField := ServiceListTagsInputResourceTypeField
  ListTagsOutputTagsField := ServiceListTagsOutputTagsField
  Title := title

/-- Truth of a string pipeline in `if`: the empty string is false. -/
def truth (s : String) : Bool := s != ""

/-- Template lines 141-147, up to the first `range`; the action `{{-` trims the newline
that ends line 147. -/
def headerText : String :=
  "\n// Code generated by generators/listtags/main.go; DO NOT EDIT.\n\npackage keyvaluetags\n\nimport (\n\t\"github.com/aws/aws-sdk-go/aws\""

/-- Template line 149, one pass of the first `range` with dot = `k`; it starts with the
newline that ends line 148, and `{{- end` trims the newline that ends line 149. -/
def importText (k : String) : String :=
  "\n\t\"github.com/aws/aws-sdk-go/service/" ++ k ++ "\""

/-- The `if` of template line 157: the extra parameter. -/
def resourceTypeParameter (fm : FuncMap) (k : String) : String :=
  if truth (fm.ListTagsInputResourceTypeField k) then ", resourceType string" else ""

/-- Template line 157 without its newline: the signature of the generated function, with
`conn` the text `ClientType` returned. -/
def signatureText (fm : FuncMap) (conn k : String) : String :=
  "func " ++ fm.Title k ++ "ListTags(conn " ++ conn ++ ", identifier string"
    ++ resourceTypeParameter fm k ++ ") (KeyValueTags, error) \x7b"

/-- The `if` block of template lines 160-162: `{{- if` trims the newline and tabs after
line 159, so the block starts at the newline that ends line 160, and `{{- end` trims the
newline and tabs that end line 161. -/
def resourceTypeAssignment (fm : FuncMap) (k : String) : String :=
  if truth (fm.ListTagsInputResourceTypeField k) then
    "\n\t\t" ++ fm.ListTagsInputResourceTypeField k ++ ": aws.String(resourceType),"
  else ""

/-- Template line 171 without its tab and newline: the return statement. -/
def returnStatement (fm : FuncMap) (k : String) : String :=
  "return " ++ fm.Title k ++ "KeyValueTags(output." ++ fm.ListTagsOutputTagsField k ++ "), nil"

/-- Template lines 152-172, one pass of the second `range` with dot = `k` and `conn` the
text `ClientType` returned: it starts with the newline that ends line 152, and `{{- end`
trims the newline that ends line 172. -/
def functionText (fm : FuncMap) (conn k : String) : String :=
  "\n\n// " ++ fm.Title k ++ "ListTags lists " ++ k ++ " service tags."
    ++ "\n// The identifier is typically the Amazon Resource Name (ARN), although"
    ++ "\n// it may also be a different identifier depending on the service."
    ++ "\n" ++ signatureText fm conn k
    ++ "\n\tinput := &" ++ k ++ "." ++ fm.ListTagsFunction k ++ "Input\x7b"
    ++ "\n\t\t" ++ fm.ListTagsInputIdentifierField k ++ ":   aws.String(identifier),"
    ++ resourceTypeAssignment fm k
    ++ "\n\t\x7d"
    ++ "\n"
    ++ "\n\toutput, err := conn." ++ fm.ListTagsFunction k ++ "(input)"
    ++ "\n"
    ++ "\n\tif err != nil \x7b"
    ++ "\n\t\treturn New(nil), err"
    ++ "\n\t\x7d"
    ++ "\n"
    ++ "\n\t" ++ returnStatement fm k
    ++ "\n\x7d"

/-- The first `range` (lines 148-150) over the service names. -/
def rangeImports : List String → String
  | [] => ""
  | k :: ks => importText k ++ rangeImports ks

/-- The second `range` (lines 152-173) over the service names: each pass calls
`ClientType`, and the first failing call ends the execution with its error. -/
def rangeFunctions (fm : FuncMap) : List String → Except String String
  | [] => .ok ""
  | k :: ks =>
    match fm.ClientType k with
    | .error err => .error err
    | .ok conn =>
      match rangeFunctions fm ks with
      | .error err => .error err
      | .ok rest => .ok (functionText fm conn k ++ rest)

/-- The execution `tmpl.Execute(&buffer, templateData)` of `templateBody` (lines 141-174):
the text written to the buffer, or the error of the execution. -/
def templateBody (fm : FuncMap) (data : TemplateData) : Except String String :=
  match rangeFunctions fm data.ServiceNames with
  | .error err => .error err
  | .ok functions =>
    .ok (headerText ++ rangeImports data.ServiceNames ++ "\n)\n" ++ functions ++ "\n")

/-! ## `main` (lines 91-139) as a run over an explicit state -/

/-- An operation on the output file, as recorded in the trace of a run. -/
inductive FileOp where
  /-- The call `os.Create(filename)` succeeded. -/
  | create
  /-- The call `os.Create(filename)` returned an error. -/
  | createFailed
  /-- The call `f.Write` wrote everything. -/
  | write
  /-- The call `f.Write` returned an error. -/
  | writeFailed
  /-- The call `f.Close()`. -/
  | close
  deriving DecidableEq, Repr

/-- How the process ends: exit status 0, or `log.Fatalf` (the message, exit status 1). -/
inductive Exit where
  | success
  | fatal (message : String)
  deriving DecidableEq, Repr

/-- The state a run of `main` reads and writes. -/
structure State where
  /-- The package-level variable `serviceNames`. -/
  serviceNames : List String
  /-- The content of the file `filename` on disk, `none` when there is no such file. -/
  file : Option String
  /-- The calls deferred in `main` and not yet run, the latest first. -/
  deferred : List FileOp
  /-- The file operations performed so far, in order. -/
  trace : List FileOp

/-- What the run takes from outside the repository: the two foreign entries of the
function map and the results of the library and system calls. -/
structure Externals where
  /-- The function `keyvaluetags.ServiceClientType`; an error stands for its panic. -/
  ServiceClientType : String → Except String String
  /-- The function `strings.Title`. -/
  Title : String → String
  /-- The error returned by `template.New("listtags").Funcs(..).Parse(templateBody)`. -/
  parse : Option String
  /-- The function `format.Source`. -/
  formatSource : String → Except String String
  /-- The error returned by `os.Create(filename)`. -/
  create : Option String
  /-- The result of `f.Write(b)`: `none` when all of `b` was written, else the number of
  characters written before the error, and the error. -/
  write : String → Option (Nat × String)

/-- The call `log.Fatalf`: the message is logged and `os.Exit(1)` ends the process at once;
`os.Exit` does not run deferred calls. -/
def logFatalf (message : String) (s : State) : Exit × State :=
  (Exit.fatal message, s)

/-- The return from `main`: the deferred calls run, the latest first, and the process
ends with status 0. -/
def returnFromMain (s : State) : Exit × State :=
  (Exit.success, { s with trace := s.trace ++ s.deferred, deferred := [] })

/-- The function `main` (lines 91-139). `os.Create` truncates the file when it exists
and creates it empty when it does not. -/
def main (ext : Externals) (s₀ : State) : Exit × State :=
  -- line 93: sort.Strings(serviceNames)
  let s := { s₀ with serviceNames := sortStrings s₀.serviceNames }
  -- lines 95-105
  let templateData : TemplateData := { ServiceNames := s.serviceNames }
  let funcs := templateFuncMap ext.ServiceClientType ext.Title
  -- lines 107-111
  match ext.parse with
  | some err => logFatalf ("error parsing template: " ++ err) s
  | none =>
  -- lines 113-118
  match templateBody funcs templateData with
  | .error err => logFatalf ("error executing template: " ++ err) s
  | .ok buffer =>
  -- lines 120-124
  match ext.formatSource buffer with
  | .error err => logFatalf ("error formatting generated file: " ++ err) s
  | .ok generatedFileContents =>
  -- lines 126-130
  match ext.create with
  | some err =>
    logFatalf ("error creating file (" ++ filename ++ "): " ++ err)
      { s with trace := s.trace ++ [FileOp.createFailed] }
  | none =>
  let s := { s with file := some "", trace := s.trace ++ [FileOp.create] }
  -- line 132: defer f.Close()
  let s := { s with deferred := FileOp.close :: s.deferred }
  -- lines 134-138
  match ext.write generatedFileContents with
  | some (n, err) =>
    logFatalf ("error writing to file (" ++ filename ++ "): " ++ err)
      { s with file := some (String.mk (generatedFileContents.toList.take n)),
               trace := s.trace ++ [FileOp.writeFailed] }
  | none =>
    returnFromMain
      { s with file := some generatedFileContents, trace := s.trace ++ [FileOp.write] }

/-- The state in which the program starts: the variable holds its initial value, nothing
is deferred and no file operation has happened; `file` is what is on disk. -/
def initialState (file : Option String) : State :=
  { serviceNames := serviceNames, file := file, deferred := [], trace := [] }

/-- The case labels of a table of `case` clauses. -/
def labels (cases : List (String × String)) : List String := cases.map Prod.fst

/-- The four shapes of a UTF-8 encoding, with the range of runes each one covers. -/
inductive Utf8Shape (c : Char) : Prop
  | one (h : c.toNat < 0x80) (e : utf8Bytes c = [c.toNat])
  | two (h1 : 0x80 ≤ c.toNat) (h2 : c.toNat < 0x800)
      (e : utf8Bytes c = [0xC0 + c.toNat / 64, 0x80 + c.toNat % 64])
  | three (h1 : 0x800 ≤ c.toNat) (h2 : c.toNat < 0x10000)
      (e : utf8Bytes c = [0xE0 + c.toNat / 4096, 0x80 + c.toNat / 64 % 64, 0x80 + c.toNat % 64])
  | four (h1 : 0x10000 ≤ c.toNat)
      (e : utf8Bytes c = [0xF0 + c.toNat / 262144, 0x80 + c.toNat / 4096 % 64,
        0x80 + c.toNat / 64 % 64, 0x80 + c.toNat % 64])

/-- The pipeline of `main` up to the buffer: `sort.Strings`, then the execution of
`templateBody` over the sorted names. -/
def pipeline (fm : FuncMap) (names : List String) : Except String String :=
  templateBody fm { ServiceNames := sortStrings names }

/-- A client type text for concrete instances: the pointer type `*k.Client`. -/
def sampleClientText (k : String) : String := "*" ++ k ++ ".Client"

/-- A client-type function for concrete instances: it returns `sampleClientText k`. -/
def sampleClientType (k : String) : Except String String := .ok (sampleClientText k)


/-! ## Reading the rendered text -/

/-- The values a lookup function can return: its default and the values of its clauses. -/
def values (default : String) (cases : List (String × String)) : List String :=
  default :: cases.map Prod.snd

/-- No character of `cs` occurs in the string `s`. -/
def freeOf (cs : List Char) (s : String) : Prop := ∀ c ∈ cs, c ∉ s.toList

instance (cs : List Char) (s : String) : Decidable (freeOf cs s) :=
  inferInstanceAs (Decidable (∀ c ∈ cs, c ∉ s.toList))

/-- The text `needle` occurs in `text` as a contiguous run of characters
(`strings.Contains(text, needle)`). -/
def occursIn (needle text : String) : Prop := needle.toList <:+: text.toList

/-- The lines of a text, split at every newline (`strings.Split(text, "\n")`). -/
def linesOf (text : String) : List String := (text.toList.splitOn '\n').map String.mk

/-- The test `strings.HasPrefix(s, p)`. -/
def hasPrefix (p s : String) : Bool := p.toList.isPrefixOf s.toList

/-- The text in which every line of `ls` is preceded by a newline. -/
def linesText (ls : List String) : List Char := ls.flatMap (fun l => '\n' :: l.toList)

/-- The lines of `headerText` after its empty first line. -/
def headerLines : List String :=
  ["// Code generated by generators/listtags/main.go; DO NOT EDIT.", "",
   "package keyvaluetags", "", "import (", "\t\"github.com/aws/aws-sdk-go/aws\""]

/-- The line of `importText k`. -/
def importLine (k : String) : String := "\t\"github.com/aws/aws-sdk-go/service/" ++ k ++ "\""

/-- The lines of `functionText fm conn k`. -/
def functionLines (fm : FuncMap) (conn k : String) : List String :=
  ["",
   "// " ++ fm.Title k ++ "ListTags lists " ++ k ++ " service tags.",
   "// The identifier is typically the Amazon Resource Name (ARN), although",
   "// it may also be a different identifier depending on the service.",
   signatureText fm conn k,
   "\tinput := &" ++ k ++ "." ++ fm.ListTagsFunction k ++ "Input\x7b",
   "\t\t" ++ fm.ListTagsInputIdentifierField k ++ ":   aws.String(identifier),"]
  ++ (if truth (fm.ListTagsInputResourceTypeField k) then
        ["\t\t" ++ fm.ListTagsInputResourceTypeField k ++ ": aws.String(resourceType),"]
      else [])
  ++ ["\t\x7d", "",
   "\toutput, err := conn." ++ fm.ListTagsFunction k ++ "(input)", "",
   "\tif err != nil \x7b", "\t\treturn New(nil), err", "\t\x7d", "",
   "\t" ++ returnStatement fm k, "\x7d"]

/-- The lines of the whole document for the names `ks`, with `ct k` the text `ClientType`
returns for `k`: an empty line, the header up to the first import line, one import line per
name, the end of the import block, the lines of one function per name, and the empty line
after the last newline. -/
def documentLines (fm : FuncMap) (ct : String → String) (ks : List String) : List String :=
  "" :: (headerLines ++ ks.map importLine ++ [")", ""]
    ++ ks.flatMap (fun k => functionLines fm (ct k) k) ++ [""])

/-- The segments of a field path, split at every dot (`strings.Split(s, ".")`). -/
def segments (s : String) : List String := (s.toList.splitOn '.').map String.mk

/-- The expression that selects the fields `segs`, one after the other, starting from
`root`: `fieldAccess "a" ["b", "c"]` is `a.b.c`, the field `c` of the field `b` of `a`. -/
def fieldAccess (root : String) (segs : List String) : String :=
  segs.foldl (fun acc f => acc ++ "." ++ f) root

/-- Externals for concrete runs in which every call succeeds: `sampleClientType`, the ASCII
`Title`, and a formatter that returns its input. -/
def sampleExternals : Externals where
  ServiceClientType := sampleClientType
  Title := Title
  parse := none
  formatSource := fun src => .ok src
  create := none
  write := fun _ => none

/-- Externals of a run in which the template is malformed: `Parse` returns an error. -/
def parseFailingExternals : Externals :=
  { sampleExternals with parse := some "template: listtags:33: unexpected EOF" }

/-- Externals of a run in which `ServiceClientType` panics on every name. -/
def clientTypeFailingExternals : Externals :=
  { sampleExternals with
    ServiceClientType := fun k => .error ("unrecognized ServiceClientType: " ++ k) }

/-- Externals of a run in which `format.Source` rejects the rendered text. -/
def formatFailingExternals : Externals :=
  { sampleExternals with formatSource := fun _ => .error "1:1: expected package clause" }

/-- Externals of a run in which `os.Create` succeeds and `f.Write` fails after writing
nothing. -/
def writeFailingExternals : Externals :=
  { sampleExternals with write := fun _ => some (0, "no space left on device") }

/-! ## Generated names and identifiers -/

/-- The name of the function generated for `k`: `{{ . | Title }}ListTags` (template lines
154 and 157). -/
def generatedName (title : String → String) (k : String) : String := title k ++ "ListTags"

/-- An ASCII lower-case letter. -/
def isLowerLetter (c : Char) : Bool := 0x61 ≤ c.toNat && c.toNat ≤ 0x7A

/-- An ASCII upper-case letter. -/
def isUpperLetter (c : Char) : Bool := 0x41 ≤ c.toNat && c.toNat ≤ 0x5A

/-- An ASCII digit. -/
def isDigit (c : Char) : Bool := 0x30 ≤ c.toNat && c.toNat ≤ 0x39

/-- A key made of ASCII lower-case letters and digits that starts with a letter. -/
def isLowerAlnumKey (k : String) : Bool :=
  match k.toList with
  | [] => false
  | c :: cs => isLowerLetter c && cs.all (fun d => isLowerLetter d || isDigit d)

/-- The string `s` with its first character replaced by its upper-case letter and the rest
kept as it is. -/
def upperFirst (s : String) : String :=
  match s.toList with
  | [] => ""
  | c :: cs => String.mk (Char.ofNat (c.toNat - 32) :: cs)

/-- An exported Go identifier made of letters: non-empty, ASCII letters only, the first one
upper-case. -/
def isExportedIdentifier (s : String) : Bool :=
  match s.toList with
  | [] => false
  | c :: cs => isUpperLetter c && cs.all (fun d => isUpperLetter d || isLowerLetter d)

/-- Two function maps return the same for the key `k`. -/
def agreeAt (fm fm' : FuncMap) (k : String) : Prop :=
  fm.ClientType k = fm'.ClientType k
  ∧ fm.ListTagsFunction k = fm'.ListTagsFunction k
  ∧ fm.ListTagsInputIdentifierField k = fm'.ListTagsInputIdentifierField k
  ∧ fm.ListTagsInputResourceTypeField k = fm'.ListTagsInputResourceTypeField k
  ∧ fm.ListTagsOutputTagsField k = fm'.ListTagsOutputTagsField k
  ∧ fm.Title k = fm'.Title k

/-- The function map `fm` with its lookups at `"redshift"` replaced by the four defaults:
what the map is when the two `"redshift"` clauses are taken out of the tables. -/
def dropRedshift (fm : FuncMap) : FuncMap :=
  { fm with
    ListTagsFunction := fun k =>
      if k = "redshift" then ServiceListTagsFunctionDefault else fm.ListTagsFunction k
    ListTagsInputIdentifierField := fun k =>
      if k = "redshift" then ServiceListTagsInputIdentifierFieldDefault
      else fm.ListTagsInputIdentifierField k
    ListTagsInputResourceTypeField := fun k =>
      if k = "redshift" then ServiceListTagsInputResourceTypeFieldDefault
      else fm.ListTagsInputResourceTypeField k
    ListTagsOutputTagsField := fun k =>
      if k = "redshift" then ServiceListTagsOutputTagsFieldDefault
      else fm.ListTagsOutputTagsField k }

/-! ## The byte-wise order is a total order on strings -/

theorem lessBytes_irrefl (x : List Nat) : lessBytes x x = false := by
  induction x with
  | nil => rfl
  | cons a as ih => simp [lessBytes, ih]

theorem lessBytes_asymm : ∀ x y : List Nat, lessBytes x y = true → lessBytes y x = false
  | _, [] => by simp [lessBytes]
  | [], _ :: _ => by simp [lessBytes]
  | a :: as, b :: bs => by
    simp only [lessBytes]
    intro h
    split at h
    · rw [if_neg (by omega), if_pos (by assumption)]
    · split at h
      · simp at h
      · rw [if_neg (by assumption), if_neg (by assumption)]
        exact lessBytes_asymm as bs h

theorem lessBytes_trans : ∀ x y z : List Nat,
    lessBytes x y = true → lessBytes y z = true → lessBytes x z = true
  | _, [], _ => by simp [lessBytes]
  | _, _ :: _, [] => by simp [lessBytes]
  | [], _ :: _, _ :: _ => by simp [lessBytes]
  | a :: as, b :: bs, c :: cs => by
    simp only [lessBytes]
    intro h1 h2
    split at h1
    · split at h2
      · rw [if_pos (by omega)]
      · split at h2
        · simp at h2
        · rw [if_pos (by omega)]
    · split at h1
      · simp at h1
      · split at h2
        · rw [if_pos (by omega)]
        · split at h2
          · simp at h2
          · rw [if_neg (by omega), if_neg (by omega)]
            exact lessBytes_trans as bs cs h1 h2

theorem lessBytes_connex : ∀ x y : List Nat,
    lessBytes x y = false → lessBytes y x = false → x = y
  | [], [] => by simp
  | [], _ :: _ => by simp [lessBytes]
  | _ :: _, [] => by simp [lessBytes]
  | a :: as, b :: bs => by
    simp only [lessBytes]
    intro h1 h2
    split at h1
    · simp at h1
    · split at h1
      · split at h2
        · simp at h2
        · omega
      · rw [if_neg (by assumption), if_neg (by assumption)] at h2
        have := lessBytes_connex as bs h1 h2
        have : a = b := by omega
        subst this; subst ‹as = bs›; rfl

theorem utf8Shape (c : Char) : Utf8Shape c := by
  by_cases h1 : c.toNat < 0x80
  · exact .one h1 (by simp [utf8Bytes, h1])
  · by_cases h2 : c.toNat < 0x800
    · exact .two (by omega) h2 (by simp [utf8Bytes, h1, h2])
    · by_cases h3 : c.toNat < 0x10000
      · exact .three (by omega) h3 (by simp [utf8Bytes, h1, h2, h3])
      · exact .four (by omega) (by simp [utf8Bytes, h1, h2, h3])

theorem utf8Bytes_append_inj (c d : Char) (x y : List Nat)
    (h : utf8Bytes c ++ x = utf8Bytes d ++ y) : c = d ∧ x = y := by
  have key : c.toNat = d.toNat ∧ x = y := by
    rcases utf8Shape c with ⟨hc, ec⟩ | ⟨hc, hc2, ec⟩ | ⟨hc, hc2, ec⟩ | ⟨hc, ec⟩ <;>
    rcases utf8Shape d with ⟨hd, ed⟩ | ⟨hd, hd2, ed⟩ | ⟨hd, hd2, ed⟩ | ⟨hd, ed⟩ <;>
    rw [ec, ed] at h <;>
    simp only [List.cons_append, List.nil_append, List.cons.injEq] at h <;>
    first
      | (exfalso; omega)
      | (constructor
         · omega
         · simp_all)
  exact ⟨Char.ext (UInt32.ext key.1), key.2⟩

theorem stringBytes_inj (a b : String) (h : stringBytes a = stringBytes b) : a = b := by
  have : ∀ x y : List Char, x.flatMap utf8Bytes = y.flatMap utf8Bytes → x = y := by
    intro x
    induction x with
    | nil =>
      intro y hy
      cases y with
      | nil => rfl
      | cons d ds =>
        exfalso
        rcases utf8Shape d with ⟨_, e⟩ | ⟨_, _, e⟩ | ⟨_, _, e⟩ | ⟨_, e⟩ <;>
          simp [List.flatMap_cons, e] at hy
    | cons c cs ih =>
      intro y hy
      cases y with
      | nil =>
        exfalso
        rcases utf8Shape c with ⟨_, e⟩ | ⟨_, _, e⟩ | ⟨_, _, e⟩ | ⟨_, e⟩ <;>
          simp [List.flatMap_cons, e] at hy
      | cons d ds =>
        simp only [List.flatMap_cons] at hy
        obtain ⟨h1, h2⟩ := utf8Bytes_append_inj c d _ _ hy
        rw [h1, ih ds h2]
  cases a; cases b
  simp only [stringBytes, String.toList] at h
  rw [this _ _ h]

instance : IsTotal String stringLE :=
  ⟨fun a b => by
    unfold stringLE stringLess
    cases h : lessBytes (stringBytes b) (stringBytes a)
    · exact Or.inl rfl
    · exact Or.inr (lessBytes_asymm _ _ h)⟩

instance : IsTrans String stringLE :=
  ⟨fun a b c hab hbc => by
    unfold stringLE stringLess at *
    cases h : lessBytes (stringBytes c) (stringBytes a)
    · rfl
    · exfalso
      cases h2 : lessBytes (stringBytes b) (stringBytes c)
      · have := lessBytes_connex _ _ hbc h2
        rw [this] at h
        simp [h] at hab
      · have := lessBytes_trans _ _ _ h2 h
        simp [this] at hab⟩

instance : IsAntisymm String stringLE :=
  ⟨fun a b hab hba => stringBytes_inj a b (lessBytes_connex _ _ hba hab)⟩

/-! ## The lookup functions against their case tables -/

theorem ServiceListTagsFunction_of_not_label (k : String)
    (h : k ∉ labels ServiceListTagsFunctionCases) :
    ServiceListTagsFunction k = "ListTagsForResource" := by
  simp [labels, ServiceListTagsFunctionCases] at h
  unfold ServiceListTagsFunction
  split <;> simp_all

theorem ServiceListTagsInputIdentifierField_of_not_label (k : String)
    (h : k ∉ labels ServiceListTagsInputIdentifierFieldCases) :
    ServiceListTagsInputIdentifierField k = "ResourceArn" := by
  simp [labels, ServiceListTagsInputIdentifierFieldCases] at h
  unfold ServiceListTagsInputIdentifierField
  split <;> simp_all

theorem ServiceListTagsInputResourceTypeField_of_not_label (k : String)
    (h : k ∉ labels ServiceListTagsInputResourceTypeFieldCases) :
    ServiceListTagsInputResourceTypeField k = "" := by
  simp [labels, ServiceListTagsInputResourceTypeFieldCases] at h
  unfold ServiceListTagsInputResourceTypeField
  split <;> simp_all

theorem ServiceListTagsOutputTagsField_of_not_label (k : String)
    (h : k ∉ labels ServiceListTagsOutputTagsFieldCases) :
    ServiceListTagsOutputTagsField k = "Tags" := by
  simp [labels, ServiceListTagsOutputTagsFieldCases] at h
  unfold ServiceListTagsOutputTagsField
  split <;> simp_all

/-! ## Claims C1 and C2 -/

/-- Claim C1 (default fallback). For every string `k` that is not a case label of a lookup
function, that function returns the value of its `default` clause; the match is exact, so
the upper-case `"KMS"` falls to the defaults although `"kms"` is a label, and `"foo"`
resolves to the four defaults. The functions are total: each is a Lean function on all
strings. -/
theorem C1_default_fallback (k : String) :
    (k ∉ labels ServiceListTagsFunctionCases → ServiceListTagsFunction k = "ListTagsForResource")
    ∧ (k ∉ labels ServiceListTagsInputIdentifierFieldCases →
        ServiceListTagsInputIdentifierField k = "ResourceArn")
    ∧ (k ∉ labels ServiceListTagsInputResourceTypeFieldCases →
        ServiceListTagsInputResourceTypeField k = "")
    ∧ (k ∉ labels ServiceListTagsOutputTagsFieldCases →
        ServiceListTagsOutputTagsField k = "Tags")
    ∧ (ServiceListTagsFunction "foo" = "ListTagsForResource"
        ∧ ServiceListTagsInputIdentifierField "foo" = "ResourceArn"
        ∧ ServiceListTagsInputResourceTypeField "foo" = ""
        ∧ ServiceListTagsOutputTagsField "foo" = "Tags")
    ∧ (ServiceListTagsFunction "KMS" = "ListTagsForResource"
        ∧ ServiceListTagsInputIdentifierField "KMS" = "ResourceArn") := by
  exact ⟨ServiceListTagsFunction_of_not_label k,
    ServiceListTagsInputIdentifierField_of_not_label k,
    ServiceListTagsInputResourceTypeField_of_not_label k,
    ServiceListTagsOutputTagsField_of_not_label k, by decide, by decide⟩

/-- Witness for C1: the theorem applied at `"foo"`, which is a label of none of the four
tables. -/
theorem C1_default_fallback_witness :
    "foo" ∉ labels ServiceListTagsFunctionCases
    ∧ "foo" ∉ labels ServiceListTagsInputIdentifierFieldCases
    ∧ "foo" ∉ labels ServiceListTagsInputResourceTypeFieldCases
    ∧ "foo" ∉ labels ServiceListTagsOutputTagsFieldCases
    ∧ ServiceListTagsFunction "foo" = "ListTagsForResource"
    ∧ ServiceListTagsInputIdentifierField "foo" = "ResourceArn"
    ∧ ServiceListTagsInputResourceTypeField "foo" = ""
    ∧ ServiceListTagsOutputTagsField "foo" = "Tags" :=
  ⟨by decide, by decide, by decide, by decide,
   (C1_default_fallback "foo").1 (by decide),
   (C1_default_fallback "foo").2.1 (by decide),
   (C1_default_fallback "foo").2.2.1 (by decide),
   (C1_default_fallback "foo").2.2.2.1 (by decide)⟩

/-- Claim C2 (override precedence). For each of the four lookup functions and every `case`
clause of its table, the function returns the clause's value at the clause's label, and that
value differs from the function's default; `"kms"` resolves to `"ListResourceTags"` and
`"KeyId"`. -/
theorem C2_override_precedence :
    (∀ p ∈ ServiceListTagsFunctionCases,
        ServiceListTagsFunction p.1 = p.2 ∧ p.2 ≠ ServiceListTagsFunctionDefault)
    ∧ (∀ p ∈ ServiceListTagsInputIdentifierFieldCases,
        ServiceListTagsInputIdentifierField p.1 = p.2
          ∧ p.2 ≠ ServiceListTagsInputIdentifierFieldDefault)
    ∧ (∀ p ∈ ServiceListTagsInputResourceTypeFieldCases,
        ServiceListTagsInputResourceTypeField p.1 = p.2
          ∧ p.2 ≠ ServiceListTagsInputResourceTypeFieldDefault)
    ∧ (∀ p ∈ ServiceListTagsOutputTagsFieldCases,
        ServiceListTagsOutputTagsField p.1 = p.2 ∧ p.2 ≠ ServiceListTagsOutputTagsFieldDefault)
    ∧ ServiceListTagsFunction "kms" = "ListResourceTags"
    ∧ ServiceListTagsInputIdentifierField "kms" = "KeyId" := by
  refine ⟨by decide, by decide, by decide, by decide, by decide, by decide⟩

/-! ## Claims C3 and C7: sorting -/

theorem sortStrings_perm_eq {ks ks' : List String} (h : ks.Perm ks') :
    sortStrings ks = sortStrings ks' :=
  List.eq_of_perm_of_sorted
    (((List.perm_insertionSort stringLE ks).trans h).trans
      (List.perm_insertionSort stringLE ks').symm)
    (List.sorted_insertionSort stringLE ks) (List.sorted_insertionSort stringLE ks')

/-- Claim C3 (order-independence of input). For every function map, every list of service
names `ks` and every permutation `ks'` of it, the pipeline of `main` (sort, then execute
the template) gives the same result for both, and so does the whole run of `main` from
states that differ only in the order of `serviceNames`; the list handed to the template is
in non-decreasing byte-wise order and is a permutation of the input. -/
theorem C3_order_independence (fm : FuncMap) (ext : Externals) (s : State)
    (ks ks' : List String) (h : ks.Perm ks') :
    pipeline fm ks = pipeline fm ks'
    ∧ main ext { s with serviceNames := ks } = main ext { s with serviceNames := ks' }
    ∧ List.Sorted stringLE (sortStrings ks)
    ∧ (sortStrings ks).Perm ks := by
  refine ⟨?_, ?_, List.sorted_insertionSort stringLE ks, List.perm_insertionSort stringLE ks⟩
  · simp only [pipeline, sortStrings_perm_eq h]
  · simp only [main, sortStrings_perm_eq h]

/-- Witness for C3 at `["waf", "kms"]` and its swap `["kms", "waf"]`. -/
theorem C3_order_independence_witness :
    pipeline (templateFuncMap sampleClientType Title) ["waf", "kms"]
      = pipeline (templateFuncMap sampleClientType Title) ["kms", "waf"]
    ∧ sortStrings ["waf", "kms"] = ["kms", "waf"] :=
  ⟨(C3_order_independence (templateFuncMap sampleClientType Title)
      ⟨sampleClientType, Title, none, Except.ok, none, fun _ => none⟩ (initialState none)
      ["waf", "kms"] ["kms", "waf"] (List.Perm.swap "kms" "waf" [])).1,
   by decide⟩

/-- Claim C7 (the roster is sorted). The compiled-in `serviceNames` is in strictly
ascending byte-wise order, so it has no duplicates and `sort.Strings` leaves it as it is. -/
theorem C7_roster_sorted :
    List.Chain' (fun a b => stringLess a b = true) serviceNames
    ∧ List.Sorted (fun a b => stringLess a b = true) serviceNames
    ∧ serviceNames.Nodup
    ∧ sortStrings serviceNames = serviceNames := by
  have hs : List.Sorted (fun a b => stringLess a b = true) serviceNames := by
    unfold List.Sorted
    decide
  exact ⟨List.Pairwise.chain' hs, hs, by decide, by decide⟩

/-! ## The values of the lookup functions -/

theorem ServiceListTagsFunction_mem_values (k : String) :
    ServiceListTagsFunction k
      ∈ values ServiceListTagsFunctionDefault ServiceListTagsFunctionCases := by
  unfold ServiceListTagsFunction
  split <;> decide

theorem ServiceListTagsInputIdentifierField_mem_values (k : String) :
    ServiceListTagsInputIdentifierField k
      ∈ values ServiceListTagsInputIdentifierFieldDefault
          ServiceListTagsInputIdentifierFieldCases := by
  unfold ServiceListTagsInputIdentifierField
  split <;> decide

theorem ServiceListTagsOutputTagsField_mem_values (k : String) :
    ServiceListTagsOutputTagsField k
      ∈ values ServiceListTagsOutputTagsFieldDefault ServiceListTagsOutputTagsFieldCases := by
  unfold ServiceListTagsOutputTagsField
  split <;> decide

theorem ServiceListTagsInputResourceTypeField_cases (k : String) :
    ServiceListTagsInputResourceTypeField k = ""
      ∨ ServiceListTagsInputResourceTypeField k = "ResourceType" := by
  unfold ServiceListTagsInputResourceTypeField
  split <;> simp

theorem values_free :
    (∀ v ∈ values ServiceListTagsFunctionDefault ServiceListTagsFunctionCases,
        freeOf [',', ':', '\n'] v)
    ∧ (∀ v ∈ values ServiceListTagsInputIdentifierFieldDefault
          ServiceListTagsInputIdentifierFieldCases, freeOf [',', ':', '\n'] v)
    ∧ (∀ v ∈ values ServiceListTagsOutputTagsFieldDefault ServiceListTagsOutputTagsFieldCases,
        freeOf [',', ':', '\n'] v) := by
  refine ⟨by decide, by decide, by decide⟩

/-- The values of the three name lookups hold no comma, colon or newline. -/
theorem lookups_free (k : String) (c : Char) (hc : c ∈ [',', ':', '\n']) :
    c ∉ (ServiceListTagsFunction k).data ∧ c ∉ (ServiceListTagsInputIdentifierField k).data
      ∧ c ∉ (ServiceListTagsOutputTagsField k).data :=
  ⟨values_free.1 _ (ServiceListTagsFunction_mem_values k) c hc,
   values_free.2.1 _ (ServiceListTagsInputIdentifierField_mem_values k) c hc,
   values_free.2.2 _ (ServiceListTagsOutputTagsField_mem_values k) c hc⟩

/-! ## Occurrences of a text whose first character is rare -/

/-- An occurrence of `c :: r` cannot start inside a stretch `x` that has no `c`. -/
theorem infix_append_of_head_not_mem {c : Char} {r x t : List Char} (h : c ∉ x) :
    (c :: r) <:+: (x ++ t) ↔ (c :: r) <:+: t := by
  induction x with
  | nil => simp
  | cons a x ih =>
    have h1 : c ≠ a := fun e => h (e ▸ List.mem_cons_self _ _)
    have h2 : c ∉ x := fun e => h (List.mem_cons_of_mem _ e)
    rw [List.cons_append, List.infix_cons_iff, List.cons_prefix_cons, ih h2]
    simp [h1]

set_option maxRecDepth 100000 in
theorem parameter_absent_signature (fm : FuncMap) (conn k : String)
    (ht : ',' ∉ (fm.Title k).data) (hc : ',' ∉ conn.data)
    (h : fm.ListTagsInputResourceTypeField k = "") :
    ¬ occursIn ", resourceType string" (signatureText fm conn k) := by
  simp [occursIn, signatureText, resourceTypeParameter, truth, h, List.infix_cons_iff,
    infix_append_of_head_not_mem, ht, hc]

set_option maxRecDepth 100000 in
theorem parameter_absent (ct : String → Except String String) (title : String → String)
    (conn k : String) (hk : ',' ∉ k.data) (ht : ',' ∉ (title k).data) (hc : ',' ∉ conn.data)
    (h : ServiceListTagsInputResourceTypeField k = "") :
    ¬ occursIn ", resourceType string" (functionText (templateFuncMap ct title) conn k) := by
  obtain ⟨h1, h2, h3⟩ := lookups_free k ',' (by decide)
  simp [occursIn, functionText, returnStatement, resourceTypeAssignment, signatureText,
    resourceTypeParameter, templateFuncMap, truth, h, List.infix_cons_iff,
    infix_append_of_head_not_mem, hk, ht, hc, h1, h2, h3]

set_option maxRecDepth 100000 in
theorem assignment_absent (ct : String → Except String String) (title : String → String)
    (conn k : String) (hk : ':' ∉ k.data) (ht : ':' ∉ (title k).data) (hc : ':' ∉ conn.data)
    (h : ServiceListTagsInputResourceTypeField k = "") :
    ¬ occursIn (ServiceListTagsInputResourceTypeField k ++ ": aws.String(resourceType),")
        (functionText (templateFuncMap ct title) conn k) := by
  obtain ⟨h1, h2, h3⟩ := lookups_free k ':' (by decide)
  simp [occursIn, functionText, returnStatement, resourceTypeAssignment, signatureText,
    resourceTypeParameter, templateFuncMap, truth, h, List.infix_cons_iff,
    infix_append_of_head_not_mem, hk, ht, hc, h1, h2, h3]

theorem occursIn_of_eq {needle text : String} (a b : String)
    (h : text = a ++ needle ++ b) : occursIn needle text :=
  ⟨a.toList, b.toList, by simp [h, String.toList]⟩

theorem parameter_present (fm : FuncMap) (conn k : String)
    (h : fm.ListTagsInputResourceTypeField k ≠ "") :
    occursIn ", resourceType string" (signatureText fm conn k) :=
  occursIn_of_eq ("func " ++ fm.Title k ++ "ListTags(conn " ++ conn ++ ", identifier string")
    ") (KeyValueTags, error) \x7b" (by simp [signatureText, resourceTypeParameter, truth, h])

theorem signature_occurs (fm : FuncMap) (conn k : String) :
    occursIn (signatureText fm conn k) (functionText fm conn k) :=
  occursIn_of_eq
    ("\n\n// " ++ fm.Title k ++ "ListTags lists " ++ k ++ " service tags."
      ++ "\n// The identifier is typically the Amazon Resource Name (ARN), although"
      ++ "\n// it may also be a different identifier depending on the service."
      ++ "\n")
    ("\n\tinput := &" ++ k ++ "." ++ fm.ListTagsFunction k ++ "Input\x7b"
      ++ "\n\t\t" ++ fm.ListTagsInputIdentifierField k ++ ":   aws.String(identifier),"
      ++ resourceTypeAssignment fm k
      ++ "\n\t\x7d" ++ "\n" ++ "\n\toutput, err := conn." ++ fm.ListTagsFunction k ++ "(input)"
      ++ "\n" ++ "\n\tif err != nil \x7b" ++ "\n\t\treturn New(nil), err" ++ "\n\t\x7d" ++ "\n"
      ++ "\n\t" ++ returnStatement fm k ++ "\n\x7d")
    (by simp only [functionText, String.append_assoc])

set_option maxRecDepth 100000 in
theorem assignment_present (fm : FuncMap) (conn k : String)
    (h : fm.ListTagsInputResourceTypeField k ≠ "") :
    occursIn (fm.ListTagsInputResourceTypeField k ++ ": aws.String(resourceType),")
      (functionText fm conn k) :=
  occursIn_of_eq
    ("\n\n// " ++ fm.Title k ++ "ListTags lists " ++ k ++ " service tags."
      ++ "\n// The identifier is typically the Amazon Resource Name (ARN), although"
      ++ "\n// it may also be a different identifier depending on the service."
      ++ "\n" ++ signatureText fm conn k
      ++ "\n\tinput := &" ++ k ++ "." ++ fm.ListTagsFunction k ++ "Input\x7b"
      ++ "\n\t\t" ++ fm.ListTagsInputIdentifierField k ++ ":   aws.String(identifier),"
      ++ "\n\t\t")
    ("\n\t\x7d" ++ "\n" ++ "\n\toutput, err := conn." ++ fm.ListTagsFunction k ++ "(input)"
      ++ "\n" ++ "\n\tif err != nil \x7b" ++ "\n\t\treturn New(nil), err" ++ "\n\t\x7d" ++ "\n"
      ++ "\n\t" ++ returnStatement fm k ++ "\n\x7d")
    (by apply String.ext; simp [functionText, resourceTypeAssignment, truth, h])

theorem returnStatement_occurs (fm : FuncMap) (conn k : String) :
    occursIn ("\n\t" ++ returnStatement fm k ++ "\n\x7d") (functionText fm conn k) :=
  occursIn_of_eq
    ("\n\n// " ++ fm.Title k ++ "ListTags lists " ++ k ++ " service tags."
      ++ "\n// The identifier is typically the Amazon Resource Name (ARN), although"
      ++ "\n// it may also be a different identifier depending on the service."
      ++ "\n" ++ signatureText fm conn k
      ++ "\n\tinput := &" ++ k ++ "." ++ fm.ListTagsFunction k ++ "Input\x7b"
      ++ "\n\t\t" ++ fm.ListTagsInputIdentifierField k ++ ":   aws.String(identifier),"
      ++ resourceTypeAssignment fm k
      ++ "\n\t\x7d" ++ "\n" ++ "\n\toutput, err := conn." ++ fm.ListTagsFunction k ++ "(input)"
      ++ "\n" ++ "\n\tif err != nil \x7b" ++ "\n\t\treturn New(nil), err" ++ "\n\t\x7d" ++ "\n")
    ""
    (by simp only [functionText, String.append_assoc, String.append_empty])

/-! ## Claims C4 and C5: the conditional parameter and the output field path -/

/-- Claim C4 (conditional parameter emission). For every service name `k` whose text, title
and client type hold no comma and no colon (as identifiers and type names do), the
signature rendered for `k`, and the whole function text, contain `, resourceType string`
if and only if `ServiceListTagsInputResourceTypeField k` is non-empty, and the function
text contains the assignment `<ResourceTypeField>: aws.String(resourceType),` under the
same condition; the signature is part of the function text. For `"ssm"` the field is
`"ResourceType"` and both are present whatever the title and client type are; for `"kms"`
the field is empty. -/
theorem C4_conditional_parameter (ct : String → Except String String)
    (title : String → String) (conn k : String)
    (hk : freeOf [',', ':'] k) (ht : freeOf [',', ':'] (title k))
    (hc : freeOf [',', ':'] conn) :
    (occursIn ", resourceType string" (signatureText (templateFuncMap ct title) conn k)
        ↔ ServiceListTagsInputResourceTypeField k ≠ "")
    ∧ (occursIn ", resourceType string" (functionText (templateFuncMap ct title) conn k)
        ↔ ServiceListTagsInputResourceTypeField k ≠ "")
    ∧ (occursIn (ServiceListTagsInputResourceTypeField k ++ ": aws.String(resourceType),")
          (functionText (templateFuncMap ct title) conn k)
        ↔ ServiceListTagsInputResourceTypeField k ≠ "")
    ∧ occursIn (signatureText (templateFuncMap ct title) conn k)
        (functionText (templateFuncMap ct title) conn k)
    ∧ ServiceListTagsInputResourceTypeField "ssm" = "ResourceType"
    ∧ occursIn ", resourceType string" (signatureText (templateFuncMap ct title) conn "ssm")
    ∧ occursIn "ResourceType: aws.String(resourceType),"
        (functionText (templateFuncMap ct title) conn "ssm")
    ∧ ServiceListTagsInputResourceTypeField "kms" = "" := by
  have hk1 : ',' ∉ k.data := hk ',' (by decide)
  have hk2 : ':' ∉ k.data := hk ':' (by decide)
  have ht1 : ',' ∉ (title k).data := ht ',' (by decide)
  have ht2 : ':' ∉ (title k).data := ht ':' (by decide)
  have hc1 : ',' ∉ conn.data := hc ',' (by decide)
  have hc2 : ':' ∉ conn.data := hc ':' (by decide)
  have hsig := signature_occurs (templateFuncMap ct title) conn k
  have hssm : (templateFuncMap ct title).ListTagsInputResourceTypeField "ssm" ≠ "" := by
    show ServiceListTagsInputResourceTypeField "ssm" ≠ ""
    decide
  refine ⟨⟨?_, ?_⟩, ⟨?_, ?_⟩, ⟨?_, ?_⟩, hsig, by decide,
    parameter_present (templateFuncMap ct title) conn "ssm" hssm,
    assignment_present (templateFuncMap ct title) conn "ssm" hssm, by decide⟩
  · intro hin hempty
    exact parameter_absent_signature (templateFuncMap ct title) conn k ht1 hc1 hempty hin
  · intro hne
    exact parameter_present (templateFuncMap ct title) conn k hne
  · intro hin hempty
    exact parameter_absent ct title conn k hk1 ht1 hc1 hempty hin
  · intro hne
    exact List.IsInfix.trans (parameter_present (templateFuncMap ct title) conn k hne) hsig
  · intro hin hempty
    exact assignment_absent ct title conn k hk2 ht2 hc2 hempty hin
  · intro hne
    exact assignment_present (templateFuncMap ct title) conn k hne

/-- Witness for C4 at `"ssm"` and at `"kms"`, with the ASCII `Title` and the client types
`*ssm.SSM` and `*kms.KMS`: for `"ssm"` the parameter and the assignment are both in the
text, for `"kms"` neither is. -/
theorem C4_conditional_parameter_witness :
    (freeOf [',', ':'] "ssm" ∧ freeOf [',', ':'] (Title "ssm") ∧ freeOf [',', ':'] "*ssm.SSM")
    ∧ occursIn ", resourceType string"
        (signatureText (templateFuncMap sampleClientType Title) "*ssm.SSM" "ssm")
    ∧ occursIn "ResourceType: aws.String(resourceType),"
        (functionText (templateFuncMap sampleClientType Title) "*ssm.SSM" "ssm")
    ∧ ¬ occursIn ", resourceType string"
        (functionText (templateFuncMap sampleClientType Title) "*kms.KMS" "kms")
    ∧ ¬ occursIn (ServiceListTagsInputResourceTypeField "kms" ++ ": aws.String(resourceType),")
        (functionText (templateFuncMap sampleClientType Title) "*kms.KMS" "kms") :=
  ⟨⟨by decide, by decide, by decide⟩,
   (C4_conditional_parameter sampleClientType Title "*ssm.SSM" "ssm"
      (by decide) (by decide) (by decide)).1.2 (by decide),
   (C4_conditional_parameter sampleClientType Title "*ssm.SSM" "ssm"
      (by decide) (by decide) (by decide)).2.2.2.2.2.2.1,
   fun h => (C4_conditional_parameter sampleClientType Title "*kms.KMS" "kms"
      (by decide) (by decide) (by decide)).2.1.1 h (by decide),
   fun h => (C4_conditional_parameter sampleClientType Title "*kms.KMS" "kms"
      (by decide) (by decide) (by decide)).2.2.1.1 h (by decide)⟩

theorem outputTagsField_values_access :
    ∀ v ∈ values ServiceListTagsOutputTagsFieldDefault ServiceListTagsOutputTagsFieldCases,
      "output." ++ v = fieldAccess "output" (segments v)
      ∧ ('.' ∈ v.toList → v = "TagInfoForResource.TagList"
          ∧ segments v = ["TagInfoForResource", "TagList"])
      ∧ ('.' ∉ v.toList → segments v = [v]) := by
  decide

/-- Claim C5 (nested field path). For every service name `k`, the return statement rendered
for `k` reads the output through the fields that are the dot-separated segments of
`ServiceListTagsOutputTagsField k`, selected one after the other in the order they have in
the value; the statement is part of the function text. A value with a dot has the two
segments `TagInfoForResource`, `TagList`, and for `"waf"` the statement is
`return WafKeyValueTags(output.TagInfoForResource.TagList), nil`; a value without a dot is
one segment, read as `output.<value>`. -/
theorem C5_nested_field_path (ct : String → Except String String) (title : String → String)
    (conn k : String) :
    returnStatement (templateFuncMap ct title) k
      = "return " ++ title k ++ "KeyValueTags("
          ++ fieldAccess "output" (segments (ServiceListTagsOutputTagsField k)) ++ "), nil"
    ∧ occursIn ("\n\t" ++ returnStatement (templateFuncMap ct title) k ++ "\n\x7d")
        (functionText (templateFuncMap ct title) conn k)
    ∧ ('.' ∈ (ServiceListTagsOutputTagsField k).toList →
        segments (ServiceListTagsOutputTagsField k) = ["TagInfoForResource", "TagList"]
        ∧ fieldAccess "output" (segments (ServiceListTagsOutputTagsField k))
            = "output.TagInfoForResource.TagList")
    ∧ ('.' ∉ (ServiceListTagsOutputTagsField k).toList →
        segments (ServiceListTagsOutputTagsField k) = [ServiceListTagsOutputTagsField k]
        ∧ fieldAccess "output" (segments (ServiceListTagsOutputTagsField k))
            = "output." ++ ServiceListTagsOutputTagsField k)
    ∧ ServiceListTagsOutputTagsField "waf" = "TagInfoForResource.TagList"
    ∧ returnStatement (templateFuncMap ct Title) "waf"
        = "return WafKeyValueTags(output.TagInfoForResource.TagList), nil" := by
  obtain ⟨h1, h2, h3⟩ :=
    outputTagsField_values_access _ (ServiceListTagsOutputTagsField_mem_values k)
  have hwaf : returnStatement (templateFuncMap ct Title) "waf"
      = "return WafKeyValueTags(output.TagInfoForResource.TagList), nil" := by
    show "return " ++ Title "waf" ++ "KeyValueTags(output."
      ++ ServiceListTagsOutputTagsField "waf" ++ "), nil" = _
    decide
  refine ⟨?_, returnStatement_occurs _ conn k, ?_, ?_, by decide, hwaf⟩
  · rw [← h1]
    apply String.ext
    simp [returnStatement, templateFuncMap]
  · intro hdot
    obtain ⟨e1, e2⟩ := h2 hdot
    refine ⟨e2, ?_⟩
    rw [← h1, e1]
    decide
  · intro hdot
    exact ⟨h3 hdot, h1.symm⟩

/-- Witness for C5 at `"waf"`, whose output field has a dot, and at `"kms"`, whose output
field has none. -/
theorem C5_nested_field_path_witness :
    '.' ∈ (ServiceListTagsOutputTagsField "waf").toList
    ∧ fieldAccess "output" (segments (ServiceListTagsOutputTagsField "waf"))
        = "output.TagInfoForResource.TagList"
    ∧ '.' ∉ (ServiceListTagsOutputTagsField "kms").toList
    ∧ fieldAccess "output" (segments (ServiceListTagsOutputTagsField "kms")) = "output.Tags" :=
  ⟨by decide,
   ((C5_nested_field_path sampleClientType Title "*waf.WAF" "waf").2.2.1 (by decide)).2,
   by decide,
   ((C5_nested_field_path sampleClientType Title "*kms.KMS" "kms").2.2.2.1 (by decide)).2⟩

/-! ## The rendered text, line by line -/

theorem linesText_append (a b : List String) :
    linesText (a ++ b) = linesText a ++ linesText b := by
  simp [linesText]

theorem intercalate_cons_eq (l : List Char) (ls : List (List Char)) :
    ['\n'].intercalate (l :: ls) = l ++ ls.flatMap (fun m => '\n' :: m) := by
  induction ls generalizing l with
  | nil => simp [List.intercalate]
  | cons m ms ih =>
    have := ih m
    simp only [List.intercalate, List.intersperse, List.flatten] at this ⊢
    simp [this]

/-- Splitting at newlines gives back the lines that were joined, when none holds a
newline. -/
theorem splitOn_linesText (l : String) (ls : List String)
    (h : ∀ m ∈ l :: ls, '\n' ∉ m.toList) :
    ((l.toList ++ linesText ls).splitOn '\n').map String.mk = l :: ls := by
  have e : l.toList ++ linesText ls = ['\n'].intercalate ((l :: ls).map String.toList) := by
    rw [List.map_cons, intercalate_cons_eq]
    simp [linesText, List.flatMap_map]
  rw [e, List.splitOn_intercalate]
  · simp [List.map_map, Function.comp_def]
  · intro m hm
    obtain ⟨s, hs, rfl⟩ := List.mem_map.1 hm
    exact h s hs
  · simp

theorem headerText_toList : headerText.toList = linesText headerLines := by
  decide

theorem importText_toList (k : String) : (importText k).toList = linesText [importLine k] := by
  simp [importText, importLine, linesText]

theorem rangeImports_toList (ks : List String) :
    (rangeImports ks).toList = linesText (ks.map importLine) := by
  induction ks with
  | nil => simp [rangeImports, linesText]
  | cons k ks ih =>
    rw [rangeImports, String.toList, String.data_append, ← String.toList, ← String.toList, ih,
      importText_toList, List.map_cons, ← linesText_append]
    rfl

set_option maxRecDepth 100000 in
theorem functionText_toList (fm : FuncMap) (conn k : String) :
    (functionText fm conn k).toList = linesText (functionLines fm conn k) := by
  by_cases h : truth (fm.ListTagsInputResourceTypeField k) = true <;>
    simp [functionText, functionLines, linesText, resourceTypeAssignment, h]

/-- The second `range` succeeds when `ClientType` does on every name, and its text is the
function texts in the order of the names. -/
theorem rangeFunctions_total (fm : FuncMap) (ct : String → String) (ks : List String)
    (h : ∀ k ∈ ks, fm.ClientType k = .ok (ct k)) :
    ∃ text, rangeFunctions fm ks = .ok text
      ∧ text.toList = linesText (ks.flatMap (fun k => functionLines fm (ct k) k)) := by
  induction ks with
  | nil => exact ⟨"", rfl, by simp [linesText]⟩
  | cons k ks ih =>
    obtain ⟨rest, h1, h2⟩ := ih (fun j hj => h j (List.mem_cons_of_mem _ hj))
    refine ⟨functionText fm (ct k) k ++ rest, ?_, ?_⟩
    · simp [rangeFunctions, h k (List.mem_cons_self _ _), h1]
    · rw [String.toList, String.data_append, ← String.toList, ← String.toList, h2,
        functionText_toList, List.flatMap_cons, linesText_append]

theorem templateBody_total (fm : FuncMap) (ct : String → String) (ks : List String)
    (h : ∀ k ∈ ks, fm.ClientType k = .ok (ct k)) :
    ∃ text, templateBody fm { ServiceNames := ks } = .ok text
      ∧ text.toList = linesText (documentLines fm ct ks).tail := by
  obtain ⟨functions, h1, h2⟩ := rangeFunctions_total fm ct ks h
  refine ⟨headerText ++ rangeImports ks ++ "\n)\n" ++ functions ++ "\n",
    by simp only [templateBody, h1], ?_⟩
  simp only [String.toList, String.data_append] at *
  rw [h2, ← String.toList, ← String.toList, headerText_toList, rangeImports_toList]
  simp [documentLines, linesText_append]
  simp [linesText]

theorem functionLines_newline_free (ct : String → Except String String)
    (title : String → String) (conn k : String) (hk : '\n' ∉ k.toList)
    (ht : '\n' ∉ (title k).toList) (hc : '\n' ∉ conn.toList) :
    ∀ l ∈ functionLines (templateFuncMap ct title) conn k, '\n' ∉ l.toList := by
  obtain ⟨h1, h2, h3⟩ := lookups_free k '\n' (by decide)
  simp only [String.toList] at *
  rcases ServiceListTagsInputResourceTypeField_cases k with h | h <;>
    simp [functionLines, signatureText, returnStatement, resourceTypeParameter, templateFuncMap,
      truth, h, hk, ht, hc, h1, h2, h3]

theorem documentLines_newline_free (ct title : String → String) (ks : List String)
    (h : ∀ k ∈ ks, '\n' ∉ k.toList ∧ '\n' ∉ (title k).toList ∧ '\n' ∉ (ct k).toList) :
    ∀ l ∈ documentLines (templateFuncMap (fun k => .ok (ct k)) title) ct ks,
      '\n' ∉ l.toList := by
  intro l hl
  simp only [documentLines, List.mem_cons, List.mem_append, List.mem_map, List.mem_flatMap,
    List.mem_singleton, List.not_mem_nil, or_false] at hl
  rcases hl with rfl | (((hl | ⟨k, hk, rfl⟩) | hl) | ⟨k, hk, hl⟩) | rfl
  · decide
  · revert l
    decide
  · have := (h k hk).1
    simp only [String.toList] at this
    simp [importLine, this]
  · rcases hl with rfl | rfl <;> decide
  · exact functionLines_newline_free _ title (ct k) k (h k hk).1 (h k hk).2.1 (h k hk).2.2 l hl
  · decide

/-- The lines of the rendered document are `documentLines`. -/
theorem linesOf_templateBody (ct title : String → String) (ks : List String)
    (h : ∀ k ∈ ks, '\n' ∉ k.toList ∧ '\n' ∉ (title k).toList ∧ '\n' ∉ (ct k).toList) :
    ∃ text, templateBody (templateFuncMap (fun k => .ok (ct k)) title) { ServiceNames := ks }
        = .ok text
      ∧ linesOf text = documentLines (templateFuncMap (fun k => .ok (ct k)) title) ct ks := by
  obtain ⟨text, h1, h2⟩ :=
    templateBody_total (templateFuncMap (fun k => .ok (ct k)) title) ct ks (fun _ _ => rfl)
  refine ⟨text, h1, ?_⟩
  have := splitOn_linesText ""
    (documentLines (templateFuncMap (fun k => .ok (ct k)) title) ct ks).tail
    (documentLines_newline_free ct title ks h)
  rw [linesOf, h2]
  simpa using this

theorem functionLines_filter_func (fm : FuncMap) (conn k : String) :
    (functionLines fm conn k).filter (hasPrefix "func ") = [signatureText fm conn k] := by
  by_cases h : truth (fm.ListTagsInputResourceTypeField k) = true <;>
    simp [functionLines, hasPrefix, signatureText, returnStatement, h, List.filter_cons]

theorem functionLines_filter_service (fm : FuncMap) (conn k : String) :
    (functionLines fm conn k).filter (hasPrefix "\t\"github.com/aws/aws-sdk-go/service/")
      = [] := by
  by_cases h : truth (fm.ListTagsInputResourceTypeField k) = true <;>
    simp [functionLines, hasPrefix, signatureText, returnStatement, h, List.filter_cons]

theorem functionLines_filter_importBlock (fm : FuncMap) (conn k : String) :
    (functionLines fm conn k).filter (hasPrefix "import (") = [] := by
  by_cases h : truth (fm.ListTagsInputResourceTypeField k) = true <;>
    simp [functionLines, hasPrefix, signatureText, returnStatement, h, List.filter_cons]

theorem importLine_hasPrefix (k : String) :
    hasPrefix "\t\"github.com/aws/aws-sdk-go/service/" (importLine k) = true
    ∧ hasPrefix "func " (importLine k) = false
    ∧ hasPrefix "import (" (importLine k) = false := by
  simp [hasPrefix, importLine, List.isPrefixOf_cons₂]

theorem importLine_injective : Function.Injective importLine := by
  intro a b h
  have := congrArg String.toList h
  simp [importLine] at this
  exact String.ext this

theorem filter_flatMap_functionLines (fm : FuncMap) (ct : String → String) (p : String → Bool)
    (f : String → List String)
    (hp : ∀ k, (functionLines fm (ct k) k).filter p = f k) (ks : List String) :
    (ks.flatMap (fun k => functionLines fm (ct k) k)).filter p = ks.flatMap f := by
  induction ks with
  | nil => rfl
  | cons k ks ih => simp [List.flatMap_cons, List.filter_append, hp, ih]

theorem documentLines_filter_func (fm : FuncMap) (ct : String → String) (ks : List String) :
    (documentLines fm ct ks).filter (hasPrefix "func ")
      = ks.map (fun k => signatureText fm (ct k) k) := by
  have e1 : (ks.map importLine).filter (hasPrefix "func ") = [] := by
    simp [List.filter_eq_nil_iff, importLine_hasPrefix]
  have e2 := filter_flatMap_functionLines fm ct (hasPrefix "func ")
    (fun k => [signatureText fm (ct k) k]) (fun k => functionLines_filter_func fm (ct k) k) ks
  have e3 : headerLines.filter (hasPrefix "func ") = [] := by decide
  have e4 : ([")", ""] : List String).filter (hasPrefix "func ") = [] := by decide
  have e5 : ([""] : List String).filter (hasPrefix "func ") = [] := by decide
  have e6 : hasPrefix "func " "" = false := by decide
  rw [documentLines, List.filter_cons, e6]
  simp only [List.filter_append, e1, e2, e3, e4, e5]
  simp [← List.map_eq_flatMap]

theorem documentLines_filter_service (fm : FuncMap) (ct : String → String)
    (ks : List String) :
    (documentLines fm ct ks).filter (hasPrefix "\t\"github.com/aws/aws-sdk-go/service/")
      = ks.map importLine := by
  have e1 : (ks.map importLine).filter (hasPrefix "\t\"github.com/aws/aws-sdk-go/service/")
      = ks.map importLine := by
    simp [List.filter_eq_self, importLine_hasPrefix]
  have e2 := filter_flatMap_functionLines fm ct
    (hasPrefix "\t\"github.com/aws/aws-sdk-go/service/")
    (fun _ => []) (fun k => functionLines_filter_service fm (ct k) k) ks
  have e3 : headerLines.filter (hasPrefix "\t\"github.com/aws/aws-sdk-go/service/") = [] := by
    decide
  have e4 : ([")", ""] : List String).filter
      (hasPrefix "\t\"github.com/aws/aws-sdk-go/service/") = [] := by decide
  have e5 : ([""] : List String).filter
      (hasPrefix "\t\"github.com/aws/aws-sdk-go/service/") = [] := by decide
  have e6 : hasPrefix "\t\"github.com/aws/aws-sdk-go/service/" "" = false := by decide
  rw [documentLines, List.filter_cons, e6]
  simp only [List.filter_append, e1, e2, e3, e4, e5]
  simp

theorem documentLines_filter_importBlock (fm : FuncMap) (ct : String → String)
    (ks : List String) :
    (documentLines fm ct ks).filter (hasPrefix "import (") = ["import ("] := by
  have e1 : (ks.map importLine).filter (hasPrefix "import (") = [] := by
    simp [List.filter_eq_nil_iff, importLine_hasPrefix]
  have e2 := filter_flatMap_functionLines fm ct (hasPrefix "import (")
    (fun _ => []) (fun k => functionLines_filter_importBlock fm (ct k) k) ks
  have e3 : headerLines.filter (hasPrefix "import (") = ["import ("] := by decide
  have e4 : ([")", ""] : List String).filter (hasPrefix "import (") = [] := by decide
  have e5 : ([""] : List String).filter (hasPrefix "import (") = [] := by decide
  have e6 : hasPrefix "import (" "" = false := by decide
  rw [documentLines, List.filter_cons, e6]
  simp only [List.filter_append, e1, e2, e3, e4, e5]
  simp

/-! ## Claim C6: one function and one import line per key -/

/-- Claim C6 (one function per key, in order). For every list of service names `ks` whose
names, titles and client types are single-line texts, the execution of `templateBody`
succeeds and the lines of its text are `documentLines`: an empty line, the generated-code
header comment and the package clause, one import block (a single `import (` line), in it
the `aws` import and then exactly one line `"github.com/aws/aws-sdk-go/service/<k>"` per
key in the order of `ks`, and after it one function per key in the order of `ks`. The
lines that start with `func ` are exactly `length ks` many, the i-th being the signature
of `Title(k_i) ++ "ListTags"`; when `ks` has no duplicates, the import line of every key
occurs exactly once. -/
theorem C6_one_function_per_key (ct title : String → String) (ks : List String)
    (h : ∀ k ∈ ks, '\n' ∉ k.toList ∧ '\n' ∉ (title k).toList ∧ '\n' ∉ (ct k).toList) :
    ∃ text,
      templateBody (templateFuncMap (fun k => .ok (ct k)) title) { ServiceNames := ks }
        = .ok text
      ∧ linesOf text = documentLines (templateFuncMap (fun k => .ok (ct k)) title) ct ks
      ∧ (linesOf text).filter (hasPrefix "func ")
          = ks.map (fun k => "func " ++ title k ++ "ListTags(conn " ++ ct k
              ++ ", identifier string"
              ++ resourceTypeParameter (templateFuncMap (fun k => .ok (ct k)) title) k
              ++ ") (KeyValueTags, error) \x7b")
      ∧ ((linesOf text).filter (hasPrefix "func ")).length = ks.length
      ∧ (linesOf text).filter (hasPrefix "\t\"github.com/aws/aws-sdk-go/service/")
          = ks.map (fun k => "\t\"github.com/aws/aws-sdk-go/service/" ++ k ++ "\"")
      ∧ (ks.Nodup → ∀ k ∈ ks,
          (linesOf text).count ("\t\"github.com/aws/aws-sdk-go/service/" ++ k ++ "\"") = 1)
      ∧ (linesOf text).take 7
          = ["", "// Code generated by generators/listtags/main.go; DO NOT EDIT.", "",
             "package keyvaluetags", "", "import (", "\t\"github.com/aws/aws-sdk-go/aws\""]
      ∧ (linesOf text).filter (hasPrefix "import (") = ["import ("] := by
  obtain ⟨text, h1, h2⟩ := linesOf_templateBody ct title ks h
  have hf := documentLines_filter_func (templateFuncMap (fun k => .ok (ct k)) title) ct ks
  have hs := documentLines_filter_service (templateFuncMap (fun k => .ok (ct k)) title) ct ks
  refine ⟨text, h1, h2, ?_, ?_, ?_, ?_, ?_, ?_⟩
  · rw [h2, hf]
    rfl
  · rw [h2, hf, List.length_map]
  · rw [h2, hs]
    rfl
  · intro hnd k hk
    have e : (linesOf text).count (importLine k)
        = ((linesOf text).filter
            (hasPrefix "\t\"github.com/aws/aws-sdk-go/service/")).count (importLine k) :=
      (List.count_filter (importLine_hasPrefix k).1).symm
    show (linesOf text).count (importLine k) = 1
    rw [e, h2, hs, List.count_map_of_injective _ _ importLine_injective]
    exact List.count_eq_one_of_mem hnd hk
  · rw [h2]
    simp [documentLines, headerLines]
  · rw [h2]
    exact documentLines_filter_importBlock _ ct ks

/-- Witness for C6 at `["kms", "waf"]` with the ASCII `Title` and the client types
`*kms.Client`, `*waf.Client`: two function definitions, named `KmsListTags` and
`WafListTags`, in that order. -/
theorem C6_one_function_per_key_witness :
    (∀ k ∈ ["kms", "waf"],
      '\n' ∉ k.toList ∧ '\n' ∉ (Title k).toList ∧ '\n' ∉ (sampleClientText k).toList)
    ∧ ∃ text,
      templateBody (templateFuncMap sampleClientType Title) { ServiceNames := ["kms", "waf"] }
        = .ok text
      ∧ (linesOf text).filter (hasPrefix "func ")
          = ["func KmsListTags(conn *kms.Client, identifier string) (KeyValueTags, error) \x7b",
             "func WafListTags(conn *waf.Client, identifier string) (KeyValueTags, error) \x7b"]
      ∧ (linesOf text).filter (hasPrefix "\t\"github.com/aws/aws-sdk-go/service/")
          = ["\t\"github.com/aws/aws-sdk-go/service/kms\"",
             "\t\"github.com/aws/aws-sdk-go/service/waf\""] := by
  refine ⟨by decide, ?_⟩
  obtain ⟨text, h1, _, h3, _, h5, _⟩ :=
    C6_one_function_per_key sampleClientText Title ["kms", "waf"] (by decide)
  refine ⟨text, h1, ?_, ?_⟩
  · rw [h3]
    decide
  · rw [h5]
    decide

/-! ## The run of `main`: claims C8, C9 and C10 -/

/-- The run of `main` on each of its six paths, the first failing step deciding the path. -/
theorem main_of_parse_error (ext : Externals) (s : State) (err : String)
    (h : ext.parse = some err) :
    main ext s = (Exit.fatal ("error parsing template: " ++ err),
      { s with serviceNames := sortStrings s.serviceNames }) := by
  simp only [main, h, logFatalf]

theorem main_of_execute_error (ext : Externals) (s : State) (err : String)
    (hp : ext.parse = none)
    (h : templateBody (templateFuncMap ext.ServiceClientType ext.Title)
      { ServiceNames := sortStrings s.serviceNames } = .error err) :
    main ext s = (Exit.fatal ("error executing template: " ++ err),
      { s with serviceNames := sortStrings s.serviceNames }) := by
  simp only [main, hp, h, logFatalf]

theorem main_of_format_error (ext : Externals) (s : State) (buffer err : String)
    (hp : ext.parse = none)
    (hx : templateBody (templateFuncMap ext.ServiceClientType ext.Title)
      { ServiceNames := sortStrings s.serviceNames } = .ok buffer)
    (h : ext.formatSource buffer = .error err) :
    main ext s = (Exit.fatal ("error formatting generated file: " ++ err),
      { s with serviceNames := sortStrings s.serviceNames }) := by
  simp only [main, hp, hx, h, logFatalf]

theorem main_of_create_error (ext : Externals) (s : State) (buffer generated err : String)
    (hp : ext.parse = none)
    (hx : templateBody (templateFuncMap ext.ServiceClientType ext.Title)
      { ServiceNames := sortStrings s.serviceNames } = .ok buffer)
    (hf : ext.formatSource buffer = .ok generated)
    (h : ext.create = some err) :
    main ext s = (Exit.fatal ("error creating file (" ++ filename ++ "): " ++ err),
      { s with serviceNames := sortStrings s.serviceNames,
               trace := s.trace ++ [FileOp.createFailed] }) := by
  simp only [main, hp, hx, hf, h, logFatalf]

theorem main_of_write_error (ext : Externals) (s : State) (buffer generated err : String)
    (n : Nat) (hp : ext.parse = none)
    (hx : templateBody (templateFuncMap ext.ServiceClientType ext.Title)
      { ServiceNames := sortStrings s.serviceNames } = .ok buffer)
    (hf : ext.formatSource buffer = .ok generated)
    (hc : ext.create = none)
    (h : ext.write generated = some (n, err)) :
    main ext s = (Exit.fatal ("error writing to file (" ++ filename ++ "): " ++ err),
      { serviceNames := sortStrings s.serviceNames,
        file := some (String.mk (generated.toList.take n)),
        deferred := FileOp.close :: s.deferred,
        trace := s.trace ++ [FileOp.create] ++ [FileOp.writeFailed] }) := by
  simp only [main, hp, hx, hf, hc, h, logFatalf]

theorem main_of_success (ext : Externals) (s : State) (buffer generated : String)
    (hp : ext.parse = none)
    (hx : templateBody (templateFuncMap ext.ServiceClientType ext.Title)
      { ServiceNames := sortStrings s.serviceNames } = .ok buffer)
    (hf : ext.formatSource buffer = .ok generated)
    (hc : ext.create = none)
    (h : ext.write generated = none) :
    main ext s = (Exit.success,
      { serviceNames := sortStrings s.serviceNames,
        file := some generated,
        deferred := [],
        trace := s.trace ++ [FileOp.create] ++ [FileOp.write] ++ (FileOp.close :: s.deferred) })
      := by
  simp only [main, hp, hx, hf, hc, h, returnFromMain]

/-- The second `range` succeeds exactly when `ClientType` does on every name. -/
theorem rangeFunctions_ok_iff (fm : FuncMap) (ks : List String) :
    (∃ text, rangeFunctions fm ks = .ok text) ↔ ∀ k ∈ ks, ∃ conn, fm.ClientType k = .ok conn := by
  induction ks with
  | nil => simp [rangeFunctions]
  | cons k ks ih =>
    simp only [List.mem_cons, forall_eq_or_imp, ← ih]
    cases h1 : fm.ClientType k with
    | error e => simp [rangeFunctions, h1]
    | ok conn =>
      cases h2 : rangeFunctions fm ks with
      | error e => simp [rangeFunctions, h1, h2]
      | ok rest => simp [rangeFunctions, h1, h2]

theorem templateBody_ok_iff (fm : FuncMap) (ks : List String) :
    (∃ text, templateBody fm { ServiceNames := ks } = .ok text)
      ↔ ∀ k ∈ ks, ∃ conn, fm.ClientType k = .ok conn := by
  rw [← rangeFunctions_ok_iff]
  unfold templateBody
  cases h : rangeFunctions fm ks with
  | error e => simp
  | ok rest => simp

/-- Claim C8 (fail-fast before write). Whenever template parsing returns an error, or the
execution of the template returns an error, or `format.Source` returns an error on the
rendered text, the run of `main` ends in `log.Fatalf` (exit status 1), the output file is
what it was before the run, and the run performs no file operation: `os.Create` is not
reached. -/
theorem C8_fail_fast_before_write (ext : Externals) (s : State)
    (h : ext.parse ≠ none
      ∨ (∃ err, templateBody (templateFuncMap ext.ServiceClientType ext.Title)
          { ServiceNames := sortStrings s.serviceNames } = .error err)
      ∨ (∃ buffer err, templateBody (templateFuncMap ext.ServiceClientType ext.Title)
          { ServiceNames := sortStrings s.serviceNames } = .ok buffer
          ∧ ext.formatSource buffer = .error err)) :
    (∃ message, (main ext s).1 = Exit.fatal message)
    ∧ (main ext s).2.file = s.file
    ∧ (main ext s).2.trace = s.trace
    ∧ FileOp.create ∉ (main ext s).2.trace.drop s.trace.length := by
  have key : (∃ message, (main ext s).1 = Exit.fatal message)
      ∧ (main ext s).2.file = s.file ∧ (main ext s).2.trace = s.trace := by
    cases hp : ext.parse with
    | some err =>
      rw [main_of_parse_error ext s err hp]
      exact ⟨⟨_, rfl⟩, rfl, rfl⟩
    | none =>
      cases hx : templateBody (templateFuncMap ext.ServiceClientType ext.Title)
          { ServiceNames := sortStrings s.serviceNames } with
      | error err =>
        rw [main_of_execute_error ext s err hp hx]
        exact ⟨⟨_, rfl⟩, rfl, rfl⟩
      | ok buffer =>
        cases hf : ext.formatSource buffer with
        | error err =>
          rw [main_of_format_error ext s buffer err hp hx hf]
          exact ⟨⟨_, rfl⟩, rfl, rfl⟩
        | ok generated =>
          exfalso
          rcases h with h | ⟨err, h⟩ | ⟨b, err, h1, h2⟩
          · exact h hp
          · rw [hx] at h
            cases h
          · rw [hx] at h1
            cases h1
            rw [hf] at h2
            cases h2
  refine ⟨key.1, key.2.1, key.2.2, ?_⟩
  rw [key.2.2]
  simp

/-- Witness for C8: a malformed template (parsing fails), a panicking client-type lookup
(execution fails) and a rejected text (formatting fails), each run over a prior artifact
`"old"`, which is left as it was. -/
theorem C8_fail_fast_before_write_witness :
    parseFailingExternals.parse ≠ none
    ∧ (main parseFailingExternals (initialState (some "old"))).1
        = Exit.fatal "error parsing template: template: listtags:33: unexpected EOF"
    ∧ (main parseFailingExternals (initialState (some "old"))).2.file = some "old"
    ∧ (main parseFailingExternals (initialState (some "old"))).2.trace = []
    ∧ (main clientTypeFailingExternals (initialState (some "old"))).2.file = some "old"
    ∧ (main formatFailingExternals (initialState (some "old"))).2.file = some "old" := by
  have hx : ∃ buffer, templateBody
      (templateFuncMap formatFailingExternals.ServiceClientType formatFailingExternals.Title)
      { ServiceNames := sortStrings (initialState (some "old")).serviceNames } = .ok buffer :=
    (templateBody_ok_iff _ _).2 (fun k _ => ⟨sampleClientText k, rfl⟩)
  obtain ⟨buffer, hb⟩ := hx
  exact ⟨by decide, by decide,
   (C8_fail_fast_before_write parseFailingExternals (initialState (some "old"))
      (Or.inl (by decide))).2.1,
   (C8_fail_fast_before_write parseFailingExternals (initialState (some "old"))
      (Or.inl (by decide))).2.2.1,
   (C8_fail_fast_before_write clientTypeFailingExternals (initialState (some "old"))
      (Or.inr (Or.inl ⟨"unrecognized ServiceClientType: acmpca", rfl⟩))).2.1,
   (C8_fail_fast_before_write formatFailingExternals (initialState (some "old"))
      (Or.inr (Or.inr ⟨buffer, "1:1: expected package clause", hb, rfl⟩))).2.1⟩

/-- Counterexample to claim C9 as stated. The compiled-in tables have entries for
`"redshift"`, which is not in the compiled-in roster, and yet the run of `main` on that
roster, with externals that all succeed, ends with exit status 0 after creating, writing
and closing the output file. -/
theorem C9_counterexample :
    "redshift" ∈ labels ServiceListTagsFunctionCases
    ∧ "redshift" ∈ labels ServiceListTagsInputIdentifierFieldCases
    ∧ "redshift" ∉ serviceNames
    ∧ (main sampleExternals (initialState none)).1 = Exit.success
    ∧ (main sampleExternals (initialState none)).2.file ≠ none
    ∧ (main sampleExternals (initialState none)).2.trace
        = [FileOp.create, FileOp.write, FileOp.close] := by
  refine ⟨by decide, by decide, by decide, by decide, by decide, by decide⟩

/-- Claim C9 as amended. An override entry for a key outside the key set is a dead entry,
not an error: `main` never compares the tables with the key set. The compiled-in tables
have entries for `"redshift"`, which is not in `serviceNames`; the run ends with exit
status 0 exactly when template parsing, the execution of the template, `format.Source`,
`os.Create` and `f.Write` all succeed; and the execution succeeds exactly when the
client-type lookup succeeds for every key of the key set. -/
theorem C9_dead_override_is_harmless (ext : Externals) (s : State) :
    ("redshift" ∈ labels ServiceListTagsFunctionCases
      ∧ "redshift" ∈ labels ServiceListTagsInputIdentifierFieldCases
      ∧ "redshift" ∉ serviceNames)
    ∧ ((main ext s).1 = Exit.success ↔
        ext.parse = none
        ∧ ∃ buffer generated,
            templateBody (templateFuncMap ext.ServiceClientType ext.Title)
              { ServiceNames := sortStrings s.serviceNames } = .ok buffer
            ∧ ext.formatSource buffer = .ok generated
            ∧ ext.create = none
            ∧ ext.write generated = none)
    ∧ ((∃ buffer, templateBody (templateFuncMap ext.ServiceClientType ext.Title)
          { ServiceNames := sortStrings s.serviceNames } = .ok buffer)
        ↔ ∀ k ∈ s.serviceNames, ∃ conn, ext.ServiceClientType k = .ok conn) := by
  refine ⟨⟨by decide, by decide, by decide⟩, ?_, ?_⟩
  · cases hp : ext.parse with
    | some err =>
      rw [main_of_parse_error ext s err hp]
      simp
    | none =>
      cases hx : templateBody (templateFuncMap ext.ServiceClientType ext.Title)
          { ServiceNames := sortStrings s.serviceNames } with
      | error err =>
        rw [main_of_execute_error ext s err hp hx]
        simp
      | ok buffer =>
        cases hf : ext.formatSource buffer with
        | error err =>
          rw [main_of_format_error ext s buffer err hp hx hf]
          simp [hf]
        | ok generated =>
          cases hc : ext.create with
          | some err =>
            rw [main_of_create_error ext s buffer generated err hp hx hf hc]
            simp
          | none =>
            cases hw : ext.write generated with
            | some r =>
              obtain ⟨n, err⟩ := r
              rw [main_of_write_error ext s buffer generated err n hp hx hf hc hw]
              simp [hf, hw]
            | none =>
              rw [main_of_success ext s buffer generated hp hx hf hc hw]
              simp [hf, hw]
  · rw [templateBody_ok_iff]
    constructor
    · intro h k hk
      exact h k ((List.perm_insertionSort stringLE s.serviceNames).mem_iff.2 hk)
    · intro h k hk
      exact h k ((List.perm_insertionSort stringLE s.serviceNames).mem_iff.1 hk)

/-- The write-error path and the success path of `main`, evaluated (claim C10). With
`os.Create` succeeding and `f.Write` returning an error, `main` ends in `log.Fatalf`; the
trace of file operations is create, failed write, with no close: the deferred `f.Close()`
is still pending when `os.Exit` ends the process. On the success path the trace is
create, write, close. -/
theorem C10_write_error_skips_close :
    (main writeFailingExternals (initialState none)).1
      = Exit.fatal "error writing to file (list_tags_gen.go): no space left on device"
    ∧ (main writeFailingExternals (initialState none)).2.trace
        = [FileOp.create, FileOp.writeFailed]
    ∧ FileOp.close ∉ (main writeFailingExternals (initialState none)).2.trace
    ∧ (main writeFailingExternals (initialState none)).2.deferred = [FileOp.close]
    ∧ (main sampleExternals (initialState none)).2.trace
        = [FileOp.create, FileOp.write, FileOp.close] := by
  refine ⟨by decide, by decide, by decide, by decide, by decide⟩

/-! ## Claim C11: what a run leaves in the output file -/

/-- Counterexample to claim C11 as stated. A run over a prior artifact `"old"` in which
`os.Create` succeeds and `f.Write` fails ends in `log.Fatalf`, and the file is no longer
what it was before the run: `os.Create` has truncated it. -/
theorem C11_counterexample :
    (main writeFailingExternals (initialState (some "old"))).1
      = Exit.fatal "error writing to file (list_tags_gen.go): no space left on device"
    ∧ (main writeFailingExternals (initialState (some "old"))).2.file = some ""
    ∧ (main writeFailingExternals (initialState (some "old"))).2.file
        ≠ (initialState (some "old")).file := by
  refine ⟨by decide, by decide, by decide⟩

/-- Claim C11 as amended. A run of `main` ends in one of three ways. It ends with exit
status 0 and the file holds the complete formatted document. Or it ends in `log.Fatalf`
before `os.Create` has succeeded (an error of parsing, execution, formatting or creation),
and the file is what it was before the run. Or `os.Create` succeeded and `f.Write` failed:
the run ends in `log.Fatalf`, the previous content is gone, and the file holds the part of
the formatted document written before the error. -/
theorem C11_write_outcomes (ext : Externals) (s : State) :
    (∃ buffer generated,
        templateBody (templateFuncMap ext.ServiceClientType ext.Title)
          { ServiceNames := sortStrings s.serviceNames } = .ok buffer
        ∧ ext.formatSource buffer = .ok generated
        ∧ (main ext s).1 = Exit.success
        ∧ (main ext s).2.file = some generated)
    ∨ ((∃ message, (main ext s).1 = Exit.fatal message)
        ∧ FileOp.create ∉ (main ext s).2.trace.drop s.trace.length
        ∧ (main ext s).2.file = s.file)
    ∨ (∃ buffer generated n err,
        templateBody (templateFuncMap ext.ServiceClientType ext.Title)
          { ServiceNames := sortStrings s.serviceNames } = .ok buffer
        ∧ ext.formatSource buffer = .ok generated
        ∧ ext.create = none
        ∧ ext.write generated = some (n, err)
        ∧ (main ext s).1 = Exit.fatal ("error writing to file (" ++ filename ++ "): " ++ err)
        ∧ (main ext s).2.trace = s.trace ++ [FileOp.create, FileOp.writeFailed]
        ∧ (main ext s).2.file = some (String.mk (generated.toList.take n))) := by
  cases hp : ext.parse with
  | some err =>
    refine Or.inr (Or.inl ?_)
    rw [main_of_parse_error ext s err hp]
    exact ⟨⟨_, rfl⟩, by simp, rfl⟩
  | none =>
    cases hx : templateBody (templateFuncMap ext.ServiceClientType ext.Title)
        { ServiceNames := sortStrings s.serviceNames } with
    | error err =>
      refine Or.inr (Or.inl ?_)
      rw [main_of_execute_error ext s err hp hx]
      exact ⟨⟨_, rfl⟩, by simp, rfl⟩
    | ok buffer =>
      cases hf : ext.formatSource buffer with
      | error err =>
        refine Or.inr (Or.inl ?_)
        rw [main_of_format_error ext s buffer err hp hx hf]
        exact ⟨⟨_, rfl⟩, by simp, rfl⟩
      | ok generated =>
        cases hc : ext.create with
        | some err =>
          refine Or.inr (Or.inl ?_)
          rw [main_of_create_error ext s buffer generated err hp hx hf hc]
          exact ⟨⟨_, rfl⟩, by simp, rfl⟩
        | none =>
          cases hw : ext.write generated with
          | some r =>
            obtain ⟨n, err⟩ := r
            refine Or.inr (Or.inr ⟨buffer, generated, n, err, rfl, hf, rfl, hw, ?_⟩)
            rw [main_of_write_error ext s buffer generated err n hp hx hf hc hw]
            exact ⟨rfl, by simp, rfl⟩
          | none =>
            refine Or.inl ⟨buffer, generated, rfl, hf, ?_⟩
            rw [main_of_success ext s buffer generated hp hx hf hc hw]
            exact ⟨rfl, rfl⟩

/-! ## Claims C12 and C13: roster drift and determinism -/

/-- Claim C12 (roster and override drift). `"redshift"` is not in `serviceNames` although
`ServiceListTagsFunction "redshift" = "DescribeTags"` is an override entry; the roster keys
`"qldb"` and `"sfn"` are labels of none of the four tables and resolve to the four
defaults. -/
theorem C12_roster_override_drift :
    "redshift" ∉ serviceNames
    ∧ ("redshift", "DescribeTags") ∈ ServiceListTagsFunctionCases
    ∧ ServiceListTagsFunction "redshift" = "DescribeTags"
    ∧ (∀ k ∈ ["qldb", "sfn"],
        k ∈ serviceNames
        ∧ k ∉ labels ServiceListTagsFunctionCases
        ∧ k ∉ labels ServiceListTagsInputIdentifierFieldCases
        ∧ k ∉ labels ServiceListTagsInputResourceTypeFieldCases
        ∧ k ∉ labels ServiceListTagsOutputTagsFieldCases
        ∧ ServiceListTagsFunction k = "ListTagsForResource"
        ∧ ServiceListTagsInputIdentifierField k = "ResourceArn"
        ∧ ServiceListTagsInputResourceTypeField k = ""
        ∧ ServiceListTagsOutputTagsField k = "Tags") := by
  refine ⟨by decide, by decide, by decide, by decide⟩

theorem sortStrings_idem (ks : List String) : sortStrings (sortStrings ks) = sortStrings ks :=
  List.Sorted.insertionSort_eq (List.sorted_insertionSort stringLE ks)

/-- Claim C13 (determinism). The rendered text is `pipeline fm ks`, a function of the
function map (the four lookup functions, the client-type function and the title function)
and the key list: function maps that return the same everywhere give the same text. A run
on the sorted list that a first run leaves in `serviceNames` renders the same text as the
first, and a second run of `main` from the state the first one left ends the same way with
the same file content and the same `serviceNames`. -/
theorem C13_determinism (fm fm' : FuncMap) (ext : Externals) (s : State) (ks : List String) :
    ((∀ k, agreeAt fm fm' k) → pipeline fm ks = pipeline fm' ks)
    ∧ pipeline fm (sortStrings ks) = pipeline fm ks
    ∧ (main ext s).2.serviceNames = sortStrings s.serviceNames
    ∧ pipeline (templateFuncMap ext.ServiceClientType ext.Title) (main ext s).2.serviceNames
        = pipeline (templateFuncMap ext.ServiceClientType ext.Title) s.serviceNames
    ∧ (main ext (main ext s).2).1 = (main ext s).1
    ∧ (main ext (main ext s).2).2.file = (main ext s).2.file
    ∧ (main ext (main ext s).2).2.serviceNames = (main ext s).2.serviceNames := by
  have hnames : (main ext s).2.serviceNames = sortStrings s.serviceNames := by
    cases hp : ext.parse with
    | some err => rw [main_of_parse_error ext s err hp]
    | none =>
      cases hx : templateBody (templateFuncMap ext.ServiceClientType ext.Title)
          { ServiceNames := sortStrings s.serviceNames } with
      | error err => rw [main_of_execute_error ext s err hp hx]
      | ok buffer =>
        cases hf : ext.formatSource buffer with
        | error err => rw [main_of_format_error ext s buffer err hp hx hf]
        | ok generated =>
          cases hc : ext.create with
          | some err => rw [main_of_create_error ext s buffer generated err hp hx hf hc]
          | none =>
            cases hw : ext.write generated with
            | some r =>
              obtain ⟨n, err⟩ := r
              rw [main_of_write_error ext s buffer generated err n hp hx hf hc hw]
            | none => rw [main_of_success ext s buffer generated hp hx hf hc hw]
  have hidem : ∀ t : State, t.serviceNames = sortStrings s.serviceNames →
      sortStrings t.serviceNames = sortStrings s.serviceNames := by
    intro t ht
    rw [ht, sortStrings_idem]
  have hrun : (main ext (main ext s).2).1 = (main ext s).1
      ∧ (main ext (main ext s).2).2.file = (main ext s).2.file
      ∧ (main ext (main ext s).2).2.serviceNames = (main ext s).2.serviceNames := by
    have ht := hidem (main ext s).2 hnames
    generalize hg : (main ext s).2 = t at ht
    cases hp : ext.parse with
    | some err =>
      rw [main_of_parse_error ext t err hp, ← hg, main_of_parse_error ext s err hp]
      simp [sortStrings_idem]
    | none =>
      cases hx : templateBody (templateFuncMap ext.ServiceClientType ext.Title)
          { ServiceNames := sortStrings s.serviceNames } with
      | error err =>
        rw [main_of_execute_error ext t err hp (ht ▸ hx), ← hg,
          main_of_execute_error ext s err hp hx]
        simp [sortStrings_idem]
      | ok buffer =>
        cases hf : ext.formatSource buffer with
        | error err =>
          rw [main_of_format_error ext t buffer err hp (ht ▸ hx) hf, ← hg,
            main_of_format_error ext s buffer err hp hx hf]
          simp [sortStrings_idem]
        | ok generated =>
          cases hc : ext.create with
          | some err =>
            rw [main_of_create_error ext t buffer generated err hp (ht ▸ hx) hf hc, ← hg,
              main_of_create_error ext s buffer generated err hp hx hf hc]
            simp [sortStrings_idem]
          | none =>
            cases hw : ext.write generated with
            | some r =>
              obtain ⟨n, err⟩ := r
              rw [main_of_write_error ext t buffer generated err n hp (ht ▸ hx) hf hc hw,
                ← hg, main_of_write_error ext s buffer generated err n hp hx hf hc hw]
              simp [sortStrings_idem]
            | none =>
              rw [main_of_success ext t buffer generated hp (ht ▸ hx) hf hc hw, ← hg,
                main_of_success ext s buffer generated hp hx hf hc hw]
              simp [sortStrings_idem]
  refine ⟨?_, ?_, hnames, ?_, hrun.1, hrun.2.1, hrun.2.2⟩
  · intro h
    have e : fm = fm' := by
      cases fm
      cases fm'
      simp only [agreeAt] at h
      simp only [FuncMap.mk.injEq]
      exact ⟨funext fun k => (h k).1, funext fun k => (h k).2.1,
        funext fun k => (h k).2.2.1, funext fun k => (h k).2.2.2.1,
        funext fun k => (h k).2.2.2.2.1, funext fun k => (h k).2.2.2.2.2⟩
    rw [e]
  · simp only [pipeline, sortStrings_idem]
  · rw [hnames]
    simp only [pipeline, sortStrings_idem]

/-- Witness for C13: function maps that agree everywhere (here the same map) render the
same text for `["waf", "kms"]`, the sorted list renders the same text as the list, and a
second run of `main` on the roster leaves the same file as the first. -/
theorem C13_determinism_witness :
    (∀ k, agreeAt (templateFuncMap sampleClientType Title)
      (templateFuncMap sampleClientType Title) k)
    ∧ pipeline (templateFuncMap sampleClientType Title) (sortStrings ["waf", "kms"])
        = pipeline (templateFuncMap sampleClientType Title) ["waf", "kms"]
    ∧ (main sampleExternals (main sampleExternals (initialState none)).2).2.file
        = (main sampleExternals (initialState none)).2.file :=
  ⟨fun _ => ⟨rfl, rfl, rfl, rfl, rfl, rfl⟩,
   (C13_determinism (templateFuncMap sampleClientType Title)
      (templateFuncMap sampleClientType Title) sampleExternals (initialState none)
      ["waf", "kms"]).2.1,
   (C13_determinism (templateFuncMap sampleClientType Title)
      (templateFuncMap sampleClientType Title) sampleExternals (initialState none)
      ["waf", "kms"]).2.2.2.2.2.1⟩

/-! ## Claim C14: the generated names of the roster -/

theorem not_isSeparator_of_alnum (c : Char) (h : (isLowerLetter c || isDigit c) = true) :
    isSeparator c = false := by
  simp only [isLowerLetter, isDigit, Bool.or_eq_true, Bool.and_eq_true, decide_eq_true_eq] at h
  unfold isSeparator
  rcases h with h | h
  · have h1 : c.toNat ≤ 0x7F := by omega
    simp [h1, h.1, h.2]
  · have h1 : c.toNat ≤ 0x7F := by omega
    simp [h1, h.1, h.2]

theorem titleLoop_of_alnum (prev : Char) (cs : List Char)
    (hp : isSeparator prev = false)
    (h : cs.all (fun d => isLowerLetter d || isDigit d) = true) :
    titleLoop prev cs = cs := by
  induction cs generalizing prev with
  | nil => rfl
  | cons c cs ih =>
    simp only [List.all_cons, Bool.and_eq_true] at h
    simp only [titleLoop, hp, Bool.false_eq_true, if_false]
    rw [ih c (not_isSeparator_of_alnum c h.1) h.2]

/-- On a key of ASCII lower-case letters and digits that starts with a letter,
`strings.Title` upper-cases the first letter and changes nothing else. -/
theorem Title_of_isLowerAlnumKey (k : String) (h : isLowerAlnumKey k = true) :
    Title k = upperFirst k := by
  obtain ⟨l⟩ := k
  cases l with
  | nil => simp [isLowerAlnumKey, String.toList] at h
  | cons c cs =>
    simp only [isLowerAlnumKey, String.toList, Bool.and_eq_true] at h
    have hsep : isSeparator ' ' = true := by decide
    have hc : isLowerLetter c = true := h.1
    have hlow : 0x61 ≤ c.toNat ∧ c.toNat ≤ 0x7A := by
      simpa [isLowerLetter] using hc
    show String.mk (titleLoop ' ' (c :: cs)) = String.mk (Char.ofNat (c.toNat - 32) :: cs)
    simp only [titleLoop, hsep, if_true, toTitle, hlow, and_self]
    rw [titleLoop_of_alnum c cs (not_isSeparator_of_alnum c (by simp [hc])) h.2]

/-- Claim C14 (no duplicate generated symbols for the roster). The generated names
`Title(k) ++ "ListTags"` of the compiled-in roster are pairwise distinct: the map is
injective on `serviceNames`. Every roster key is made of ASCII lower-case letters and
digits and starts with a letter, and on such a key `strings.Title` upper-cases the first
letter and changes nothing else. On arbitrary strings the map is not injective: `"kms"`
and `"Kms"` both give `"KmsListTags"`. -/
theorem C14_generated_names_distinct :
    (serviceNames.map (generatedName Title)).Nodup
    ∧ (∀ a ∈ serviceNames, ∀ b ∈ serviceNames,
        generatedName Title a = generatedName Title b → a = b)
    ∧ (∀ k ∈ serviceNames, isLowerAlnumKey k = true)
    ∧ (∀ k : String, isLowerAlnumKey k = true → Title k = upperFirst k)
    ∧ (∀ k ∈ serviceNames, Title k = upperFirst k)
    ∧ "kms" ≠ "Kms"
    ∧ generatedName Title "kms" = "KmsListTags"
    ∧ generatedName Title "Kms" = "KmsListTags" := by
  have hnd : (serviceNames.map (generatedName Title)).Nodup := by decide
  have hkeys : ∀ k ∈ serviceNames, isLowerAlnumKey k = true := by decide
  refine ⟨hnd, ?_, hkeys, Title_of_isLowerAlnumKey, ?_, by decide, by decide, by decide⟩
  · intro a ha b hb hab
    exact List.inj_on_of_nodup_map hnd ha hb hab
  · intro k hk
    exact Title_of_isLowerAlnumKey k (hkeys k hk)

/-- Witness for C14 at the roster keys `"kms"` and `"waf"`: distinct keys, distinct
generated names. -/
theorem C14_generated_names_distinct_witness :
    isLowerAlnumKey "kms" = true
    ∧ Title "kms" = upperFirst "kms"
    ∧ (generatedName Title "kms" = generatedName Title "waf" → "kms" = "waf") :=
  ⟨by decide, C14_generated_names_distinct.2.2.2.1 "kms" (by decide),
   C14_generated_names_distinct.2.1 "kms" (by decide) "waf" (by decide)⟩

/-! ## Claims C15 to C17: the override tables -/

theorem labels_in_roster_or_redshift :
    (∀ k ∈ labels ServiceListTagsFunctionCases, k ∈ serviceNames ∨ k = "redshift")
    ∧ (∀ k ∈ labels ServiceListTagsInputIdentifierFieldCases,
        k ∈ serviceNames ∨ k = "redshift")
    ∧ (∀ k ∈ labels ServiceListTagsInputResourceTypeFieldCases,
        k ∈ serviceNames ∨ k = "redshift")
    ∧ (∀ k ∈ labels ServiceListTagsOutputTagsFieldCases, k ∈ serviceNames ∨ k = "redshift") := by
  refine ⟨by decide, by decide, by decide, by decide⟩

/-- The text of one function depends on the function map only through its values at the
key. -/
theorem functionText_congr (fm fm' : FuncMap) (conn k : String) (h : agreeAt fm fm' k) :
    functionText fm conn k = functionText fm' conn k := by
  obtain ⟨_, h2, h3, h4, h5, h6⟩ := h
  simp only [functionText, signatureText, resourceTypeParameter, resourceTypeAssignment,
    returnStatement, h2, h3, h4, h5, h6]

theorem rangeFunctions_congr (fm fm' : FuncMap) (ks : List String)
    (h : ∀ k ∈ ks, agreeAt fm fm' k) : rangeFunctions fm ks = rangeFunctions fm' ks := by
  induction ks with
  | nil => rfl
  | cons k ks ih =>
    have hk := h k (List.mem_cons_self _ _)
    simp only [rangeFunctions, ih (fun j hj => h j (List.mem_cons_of_mem _ hj)), ← hk.1]
    cases fm.ClientType k with
    | error e => rfl
    | ok conn => simp only [functionText_congr fm fm' conn k hk]

/-- The rendered document depends on the function map only through its values at the
keys of the list. -/
theorem templateBody_congr (fm fm' : FuncMap) (ks : List String)
    (h : ∀ k ∈ ks, agreeAt fm fm' k) :
    templateBody fm { ServiceNames := ks } = templateBody fm' { ServiceNames := ks } := by
  simp only [templateBody, rangeFunctions_congr fm fm' ks h]

theorem agreeAt_dropRedshift (fm : FuncMap) (k : String) (h : k ≠ "redshift") :
    agreeAt fm (dropRedshift fm) k := by
  simp [agreeAt, dropRedshift, h]

/-- Claim C15 (`"redshift"` is the only dead override key). For every string `k`, if one of
the four lookup functions returns a value other than its default for `k`, then `k` is in
`serviceNames` or `k = "redshift"`. The document rendered for the roster does not depend
on the `"redshift"` entries: every function map that agrees with the compiled-in one at
all keys other than `"redshift"` renders the same document, in particular the map whose
lookups return the defaults at `"redshift"`. -/
theorem C15_redshift_only_dead_key (k : String) (ct : String → Except String String)
    (title : String → String) (fm' : FuncMap) :
    ((ServiceListTagsFunction k ≠ "ListTagsForResource"
        ∨ ServiceListTagsInputIdentifierField k ≠ "ResourceArn"
        ∨ ServiceListTagsInputResourceTypeField k ≠ ""
        ∨ ServiceListTagsOutputTagsField k ≠ "Tags") → k ∈ serviceNames ∨ k = "redshift")
    ∧ ((∀ j, j ≠ "redshift" → agreeAt (templateFuncMap ct title) fm' j) →
        pipeline fm' serviceNames = pipeline (templateFuncMap ct title) serviceNames)
    ∧ pipeline (dropRedshift (templateFuncMap ct title)) serviceNames
        = pipeline (templateFuncMap ct title) serviceNames
    ∧ (dropRedshift (templateFuncMap ct title)).ListTagsFunction "redshift"
        = "ListTagsForResource"
    ∧ (templateFuncMap ct title).ListTagsFunction "redshift" = "DescribeTags" := by
  have hmem : ∀ j ∈ sortStrings serviceNames, j ≠ "redshift" := by
    decide
  have hdep : ∀ fm'' : FuncMap, (∀ j, j ≠ "redshift" → agreeAt (templateFuncMap ct title) fm'' j) →
      pipeline fm'' serviceNames = pipeline (templateFuncMap ct title) serviceNames := by
    intro fm'' h
    exact (templateBody_congr _ _ _ (fun j hj => h j (hmem j hj))).symm
  refine ⟨?_, hdep fm', hdep _ (fun j hj => agreeAt_dropRedshift _ j hj), rfl, rfl⟩
  intro h
  rcases h with h | h | h | h
  · exact labels_in_roster_or_redshift.1 k
      (by_contra fun hn => h (ServiceListTagsFunction_of_not_label k hn))
  · exact labels_in_roster_or_redshift.2.1 k
      (by_contra fun hn => h (ServiceListTagsInputIdentifierField_of_not_label k hn))
  · exact labels_in_roster_or_redshift.2.2.1 k
      (by_contra fun hn => h (ServiceListTagsInputResourceTypeField_of_not_label k hn))
  · exact labels_in_roster_or_redshift.2.2.2 k
      (by_contra fun hn => h (ServiceListTagsOutputTagsField_of_not_label k hn))

/-- Witness for C15 at `"redshift"`, where two lookups leave their defaults, and at the map
with the `"redshift"` lookups set to the defaults. -/
theorem C15_redshift_only_dead_key_witness :
    ServiceListTagsFunction "redshift" ≠ "ListTagsForResource"
    ∧ ("redshift" ∈ serviceNames ∨ "redshift" = "redshift")
    ∧ pipeline (dropRedshift (templateFuncMap sampleClientType Title)) serviceNames
        = pipeline (templateFuncMap sampleClientType Title) serviceNames :=
  ⟨by decide,
   (C15_redshift_only_dead_key "redshift" sampleClientType Title
      (dropRedshift (templateFuncMap sampleClientType Title))).1 (Or.inl (by decide)),
   (C15_redshift_only_dead_key "redshift" sampleClientType Title
      (dropRedshift (templateFuncMap sampleClientType Title))).2.1
      (fun j hj => agreeAt_dropRedshift _ j hj)⟩

theorem values_identifiers :
    (∀ v ∈ values ServiceListTagsFunctionDefault ServiceListTagsFunctionCases,
        isExportedIdentifier v = true)
    ∧ (∀ v ∈ values ServiceListTagsInputIdentifierFieldDefault
          ServiceListTagsInputIdentifierFieldCases, isExportedIdentifier v = true)
    ∧ (∀ v ∈ values ServiceListTagsOutputTagsFieldDefault ServiceListTagsOutputTagsFieldCases,
        v ≠ "" ∧ ∀ seg ∈ segments v, isExportedIdentifier seg = true) := by
  refine ⟨by decide, by decide, by decide⟩

theorem isExportedIdentifier_ne_empty (s : String) (h : isExportedIdentifier s = true) :
    s ≠ "" := by
  intro e
  rw [e] at h
  exact absurd h (by decide)

theorem ServiceListTagsInputResourceTypeField_ne_empty_iff (k : String) :
    ServiceListTagsInputResourceTypeField k ≠ "" ↔ k = "ssm" := by
  unfold ServiceListTagsInputResourceTypeField
  split <;> simp_all

/-- Claim C16 (every resolved name is a usable exported identifier). For every string `k`,
`ServiceListTagsFunction k` and `ServiceListTagsInputIdentifierField k` are non-empty, made
of ASCII letters only and start with an upper-case letter; `ServiceListTagsOutputTagsField
k` is non-empty and each of its dot-separated segments is such an identifier;
`ServiceListTagsInputResourceTypeField k` is `""` or `"ResourceType"`, and it is non-empty
exactly when `k = "ssm"`. -/
theorem C16_resolved_names_are_identifiers (k : String) :
    (ServiceListTagsFunction k ≠ "" ∧ isExportedIdentifier (ServiceListTagsFunction k) = true)
    ∧ (ServiceListTagsInputIdentifierField k ≠ ""
        ∧ isExportedIdentifier (ServiceListTagsInputIdentifierField k) = true)
    ∧ (ServiceListTagsOutputTagsField k ≠ ""
        ∧ ∀ seg ∈ segments (ServiceListTagsOutputTagsField k),
            isExportedIdentifier seg = true)
    ∧ (ServiceListTagsInputResourceTypeField k = ""
        ∨ ServiceListTagsInputResourceTypeField k = "ResourceType")
    ∧ (ServiceListTagsInputResourceTypeField k ≠ "" ↔ k = "ssm") := by
  have h1 := values_identifiers.1 _ (ServiceListTagsFunction_mem_values k)
  have h2 := values_identifiers.2.1 _ (ServiceListTagsInputIdentifierField_mem_values k)
  have h3 := values_identifiers.2.2 _ (ServiceListTagsOutputTagsField_mem_values k)
  exact ⟨⟨isExportedIdentifier_ne_empty _ h1, h1⟩, ⟨isExportedIdentifier_ne_empty _ h2, h2⟩,
    h3, ServiceListTagsInputResourceTypeField_cases k,
    ServiceListTagsInputResourceTypeField_ne_empty_iff k⟩

theorem ServiceListTagsOutputTagsField_dot_iff (k : String) :
    '.' ∈ (ServiceListTagsOutputTagsField k).toList ↔ k = "waf" := by
  unfold ServiceListTagsOutputTagsField
  split <;> simp_all

/-- Claim C17 (`"waf"` is the only key with a nested output path). For every string `k`,
`ServiceListTagsOutputTagsField k` contains a dot if and only if `k = "waf"`; for `"waf"`
it contains exactly one dot, between the two segments `TagInfoForResource` and
`TagList`. -/
theorem C17_waf_only_nested_path (k : String) :
    ('.' ∈ (ServiceListTagsOutputTagsField k).toList ↔ k = "waf")
    ∧ (ServiceListTagsOutputTagsField "waf").toList.count '.' = 1
    ∧ segments (ServiceListTagsOutputTagsField "waf") = ["TagInfoForResource", "TagList"]
    ∧ (segments (ServiceListTagsOutputTagsField "waf")).length = 2 :=
  ⟨ServiceListTagsOutputTagsField_dot_iff k, by decide, by decide, by decide⟩

end ListTags
